import Mathlib

/-!
Verification development for the invader-game collision engine and
fixed-timestep scheduler.

The definitions below are a shallow embedding of the JavaScript source:

* `GameObject` (src/unnamed/part_002) becomes `Entity`; numeric fields are
  rationals (JS numbers used only through `+ - * / < <= max sqrt` on values
  produced from rational literals behave like exact rationals here).
* `CollisionSystem` and `SpatialGrid` (src/unnamed/part_007) become the
  predicates `checkAABBCollision`, `checkCircleCollision`, `checkCollision`,
  the dispatcher `handleCollision`, and the grid `buildGrid` /
  `getNearbyIds`.
* `GameEngine.gameLoop` / `GameEngine.update` (src/unnamed/part_000) become
  `gameLoopTick` / `engineUpdate`.
* The entity collision hooks (`onCollision` in player.js, enemy.js,
  bullet.js, weaponPickup.js) become `playerOnCollision`,
  `enemyOnCollision`, `bulletOnCollision`, `pickupOnCollision`.

Comparisons against `Math.sqrt(d2)` are encoded on squares: for a
nonnegative radicand `d2`, `Math.sqrt(d2) < r` holds iff `0 < r ∧ d2 < r^2`
and `Math.sqrt(d2) <= r` holds iff `0 ≤ r ∧ d2 ≤ r^2`; `sqrtLt` and
`sqrtLe` below are exactly these encodings, so no real-number square root
is needed.
-/

/-- The role of an entity: in the source this is the JavaScript class of the
object (`Player`, `Enemy`, `Bullet` with its `isPlayerBullet` flag split
into two roles, `WeaponPickup`), tested with `instanceof`. -/
inductive Role where
  | player
  | enemy
  | playerBullet
  | enemyBullet
  | weaponPickup
deriving DecidableEq, Repr

/-- Shallow embedding of `GameObject` state (src/unnamed/part_002) together
with the subclass fields used by the collision hooks: `health` and
`invulnerable`/`invulnerabilityTime` (player.js, enemy.js), `damage`,
`piercing`, `pierceCount`, `maxPierceCount` (bullet.js), and
`weaponUpgrades`, a counter of how many times
`weaponManager.upgradeWeapon()` has been invoked for this entity
(`hasWeaponManager` models whether `this.weaponManager` is set).
Render-only fields (`color`, `visible`, trails) are not modelled. -/
structure Entity where
  id : Nat
  role : Role
  x : ℚ
  y : ℚ
  vx : ℚ
  vy : ℚ
  width : ℚ
  height : ℚ
  active : Bool
  shouldDestroy : Bool
  health : ℤ
  invulnerable : Bool
  invulnerabilityTime : ℚ
  invulnerabilityDuration : ℚ
  damage : ℤ
  piercing : Bool
  pierceCount : Nat
  maxPierceCount : Nat
  weaponUpgrades : Nat
  hasWeaponManager : Bool
deriving DecidableEq, Repr

/-- Bounding box, as returned by `GameObject.getBounds`. -/
structure Bounds where
  left : ℚ
  right : ℚ
  top : ℚ
  bottom : ℚ
deriving DecidableEq, Repr

/-- Embedding of `GameObject.getBounds` (src/unnamed/part_002 lines 153-160). -/
def getBounds (o : Entity) : Bounds :=
  { left := o.x - o.width / 2
    right := o.x + o.width / 2
    top := o.y - o.height / 2
    bottom := o.y + o.height / 2 }

/-- Squared distance between centers; `GameObject.distanceTo` returns
`Math.sqrt` of this. -/
def distSq (o1 o2 : Entity) : ℚ :=
  (o1.x - o2.x) * (o1.x - o2.x) + (o1.y - o2.y) * (o1.y - o2.y)

/-- Encoding of `Math.sqrt d2 < r` for a nonnegative radicand `d2`. -/
def sqrtLt (d2 r : ℚ) : Bool :=
  0 < r && d2 < r * r

/-- Encoding of `Math.sqrt d2 <= r` for a nonnegative radicand `d2`. -/
def sqrtLe (d2 r : ℚ) : Bool :=
  0 ≤ r && d2 ≤ r * r

/-- Embedding of `CollisionSystem.checkAABBCollision` (src/unnamed/part_007 lines
247-255): not (entirely to one side along either axis), with strict
comparisons. -/
def checkAABBCollision (o1 o2 : Entity) : Bool :=
  let b1 := getBounds o1
  let b2 := getBounds o2
  !(b1.right < b2.left || b1.left > b2.right ||
    b1.bottom < b2.top || b1.top > b2.bottom)

/-- Embedding of `GameObject.collidesWith` (src/unnamed/part_002 lines 114-131): same
box test as `checkAABBCollision`, guarded by both activity flags. -/
def collidesWith (o1 o2 : Entity) : Bool :=
  if !o1.active || !o2.active then false
  else
    let thisLeft := o1.x - o1.width / 2
    let thisRight := o1.x + o1.width / 2
    let thisTop := o1.y - o1.height / 2
    let thisBottom := o1.y + o1.height / 2
    let otherLeft := o2.x - o2.width / 2
    let otherRight := o2.x + o2.width / 2
    let otherTop := o2.y - o2.height / 2
    let otherBottom := o2.y + o2.height / 2
    !(thisRight < otherLeft || thisLeft > otherRight ||
      thisBottom < otherTop || thisTop > otherBottom)

/-- The per-object radius used by `checkCircleCollision`:
`Math.max(obj.width, obj.height) / 2`, enlarged by 10 when the object is a
`WeaponPickup`. -/
def effRadius (o : Entity) : ℚ :=
  max o.width o.height / 2 + (if o.role = Role.weaponPickup then 10 else 0)

/-- Embedding of `CollisionSystem.checkCircleCollision` (src/unnamed/part_007 lines
263-288): `distance < radius1 + radius2`, strict, with the pickup bonus
radius folded into `effRadius`. -/
def checkCircleCollision (o1 o2 : Entity) : Bool :=
  sqrtLt (distSq o1 o2) (effRadius o1 + effRadius o2)

/-- The `(WeaponPickup, Player)` / `(Player, WeaponPickup)` test used both
by `checkCollision` and by `handleCollision`. -/
def isPlayerPickupPair (o1 o2 : Entity) : Bool :=
  (o1.role = Role.weaponPickup && o2.role = Role.player) ||
  (o1.role = Role.player && o2.role = Role.weaponPickup)

/-- Embedding of `CollisionSystem.checkCollision` (src/unnamed/part_007 lines 228-239). -/
def checkCollision (o1 o2 : Entity) : Bool :=
  if !o1.active || !o2.active then false
  else if isPlayerPickupPair o1 o2 then checkCircleCollision o1 o2
  else checkAABBCollision o1 o2

/-- The condition under which `checkPlayerWeaponPickupCollisions`
(src/unnamed/part_007 lines 164-197) calls `handleCollision` for a given
player and pickup: `distance <= 30`, or else the normal `checkCollision`. -/
def pickupCollisionTriggered (player pickup : Entity) : Bool :=
  sqrtLe (distSq player pickup) 30 || checkCollision player pickup

/-- Convenience constructor with the `GameObject` defaults of
src/unnamed/part_002 for the fields a scenario does not mention. -/
def mkEntity (id : Nat) (role : Role) (x y w h : ℚ) : Entity :=
  { id := id, role := role, x := x, y := y, vx := 0, vy := 0,
    width := w, height := h, active := true, shouldDestroy := false,
    health := 3, invulnerable := false, invulnerabilityTime := 0,
    invulnerabilityDuration := 2000, damage := 1, piercing := false,
    pierceCount := 0, maxPierceCount := 0, weaponUpgrades := 0,
    hasWeaponManager := true }

/-! ## Collision hooks (player.js, enemy.js, bullet.js, weaponPickup.js)

Each `onCollision(other)` method mutates `this` and (possibly) `other`; it
is embedded as a function `Entity → Entity → Entity × Entity` taking
`(self, other)` to their updated states.  Side effects on subsystems other
than the two participants (score, UI, explosion effects, the randomized
weapon drop spawned by `Enemy.onDeath`, and the `setTimeout` color flash)
are outside the modelled state and are not represented; none of them
removes an entity from the registry. -/

/-- Embedding of `GameObject.destroy` (src/unnamed/part_002 lines 104-107). -/
def destroyE (o : Entity) : Entity :=
  { o with shouldDestroy := true, active := false }

/-- Embedding of `Player.upgradeWeapon` (player.js lines 154-158): forwards to the
weapon manager when present; modelled as bumping the invocation counter. -/
def playerUpgradeWeapon (o : Entity) : Entity :=
  if o.hasWeaponManager then { o with weaponUpgrades := o.weaponUpgrades + 1 }
  else o

/-- Embedding of `Player.onDeath` (player.js lines 144-147): deactivates the player. -/
def playerOnDeath (o : Entity) : Entity :=
  { o with active := false }

/-- Embedding of `Player.takeDamage` (player.js lines 113-139): no-op while invulnerable
or inactive; otherwise lose health, then either die or start the
invulnerability window. -/
def playerTakeDamage (o : Entity) (damage : ℤ) : Entity :=
  if o.invulnerable || !o.active then o
  else
    let o := { o with health := o.health - damage }
    if o.health ≤ 0 then playerOnDeath o
    else { o with invulnerable := true,
                  invulnerabilityTime := o.invulnerabilityDuration }

/-- Embedding of `Enemy.onDeath` (enemy.js lines 196-210): score, weapon drop and
explosion act on other subsystems; on the enemy itself it calls
`destroy()`. -/
def enemyOnDeath (o : Entity) : Entity :=
  destroyE o

/-- Embedding of `Enemy.takeDamage` (enemy.js lines 166-177): no-op when inactive;
otherwise lose health and die at `health <= 0` (the damage flash only
touches the unmodelled color). -/
def enemyTakeDamage (o : Entity) (damage : ℤ) : Entity :=
  if !o.active then o
  else
    let o := { o with health := o.health - damage }
    if o.health ≤ 0 then enemyOnDeath o else o

/-- Embedding of `Player.onCollision` (player.js lines 232-250). -/
def playerOnCollision (self other : Entity) : Entity × Entity :=
  if other.role = Role.weaponPickup && other.active then
    (if self.hasWeaponManager then playerUpgradeWeapon self else self,
     destroyE other)
  else if other.role = Role.enemyBullet then
    (playerTakeDamage self 1, destroyE other)
  else if other.role = Role.enemy then
    (playerTakeDamage self 1, other)
  else (self, other)

/-- Embedding of `Enemy.onCollision` (enemy.js lines 319-329). -/
def enemyOnCollision (self other : Entity) : Entity × Entity :=
  if other.role = Role.playerBullet then
    (enemyTakeDamage self other.damage, destroyE other)
  else if other.role = Role.player then
    (enemyTakeDamage self 999, other)
  else (self, other)

/-- Embedding of `Bullet.onCollision` (bullet.js lines 127-150). -/
def bulletOnCollision (self other : Entity) : Entity × Entity :=
  if self.role = Role.playerBullet then
    if other.role = Role.enemy then
      let other := enemyTakeDamage other self.damage
      if self.piercing && self.pierceCount < self.maxPierceCount then
        ({ self with pierceCount := self.pierceCount + 1 }, other)
      else (destroyE self, other)
    else (self, other)
  else
    if other.role = Role.player then
      (destroyE self, playerTakeDamage other self.damage)
    else (self, other)

/-- Embedding of `WeaponPickup.onCollision` (weaponPickup.js lines 228-238). -/
def pickupOnCollision (self other : Entity) : Entity × Entity :=
  if other.role = Role.player && self.active then
    (destroyE self, playerUpgradeWeapon other)
  else (self, other)

/-- The type of an `onCollision` hook: `(self, other) ↦ (self', other')`. -/
abbrev HookFn := Entity → Entity → Entity × Entity

/-- The hook each role actually provides in this repository (every
`GameObject` subclass here defines `onCollision`, so every role maps to
`some`); the dispatcher below is nevertheless parametric in this map
because it guards each call with `if (obj.onCollision)`. -/
def gameHooks : Role → Option HookFn
  | Role.player => some playerOnCollision
  | Role.enemy => some enemyOnCollision
  | Role.playerBullet => some bulletOnCollision
  | Role.enemyBullet => some bulletOnCollision
  | Role.weaponPickup => some pickupOnCollision

/-! ## Resolution dispatcher (`CollisionSystem.handleCollision`) -/

/-- Result of one `handleCollision` call: the updated dedup set, the two
updated entities, and the list of hook invocations `(self.id, other.id)`
actually performed, in call order. -/
structure Dispatch where
  pairs : List (Nat × Nat)
  o1 : Entity
  o2 : Entity
  log : List (Nat × Nat)
deriving Repr

/-- Embedding of `CollisionSystem.handleCollision` (src/unnamed/part_007 lines 295-322).
The source key is the string `id1 + "-" + id2` built in argument order;
since ids are unique tokens it is embedded as the ordered pair
`(o1.id, o2.id)`.  Player↔pickup pairs skip the dedup check and do not
record a key.  Then `obj1.onCollision(obj2)` and `obj2.onCollision(obj1)`
run in that order, each guarded on the hook's existence, the second call
seeing the states produced by the first. -/
def handleCollision (hooks : Role → Option HookFn)
    (pairs : List (Nat × Nat)) (o1 o2 : Entity) : Dispatch :=
  let isWP := isPlayerPickupPair o1 o2
  let key := (o1.id, o2.id)
  if !isWP && pairs.contains key then
    { pairs := pairs, o1 := o1, o2 := o2, log := [] }
  else
    let pairs1 := if isWP then pairs else key :: pairs
    let step1 : Entity × Entity × List (Nat × Nat) :=
      match hooks o1.role with
      | some f => let r := f o1 o2; (r.1, r.2, [(o1.id, o2.id)])
      | none => (o1, o2, [])
    let a1 := step1.1
    let b1 := step1.2.1
    let step2 : Entity × Entity × List (Nat × Nat) :=
      match hooks b1.role with
      | some g => let r := g b1 a1; (r.2, r.1, [(b1.id, a1.id)])
      | none => (a1, b1, [])
    { pairs := pairs1, o1 := step2.1, o2 := step2.2.1,
      log := step1.2.2 ++ step2.2.2 }

/-! ## Spatial grid (`SpatialGrid`, src/unnamed/part_007 lines 390-489)

The `rows * cols` array of cells is embedded as a function from `(row,
col)` to the list of inserted object ids; the flattened index
`row * cols + col` of the source is injective on the clamped ranges below,
so the pair-indexed function is an exact model of the array.  Cells hold
object references in the source; references are embedded as ids (ids are
unique per object). -/

/-- Grid construction parameters (`width`, `height`, `cellSize`). -/
structure GridParams where
  width : ℚ
  height : ℚ
  cellSize : ℚ
deriving Repr

/-- Embedding of `this.cols = Math.ceil(width / cellSize)`. -/
def gridCols (g : GridParams) : ℤ := ⌈g.width / g.cellSize⌉

/-- Embedding of `this.rows = Math.ceil(height / cellSize)`. -/
def gridRows (g : GridParams) : ℤ := ⌈g.height / g.cellSize⌉

/-- Embedding of `startCol = Math.max(0, Math.floor(bounds.left / cellSize))`. -/
def startCol (g : GridParams) (b : Bounds) : ℤ := max 0 ⌊b.left / g.cellSize⌋

/-- Embedding of `endCol = Math.min(cols - 1, Math.floor(bounds.right / cellSize))`. -/
def endCol (g : GridParams) (b : Bounds) : ℤ :=
  min (gridCols g - 1) ⌊b.right / g.cellSize⌋

/-- Embedding of `startRow = Math.max(0, Math.floor(bounds.top / cellSize))`. -/
def startRow (g : GridParams) (b : Bounds) : ℤ := max 0 ⌊b.top / g.cellSize⌋

/-- Embedding of `endRow = Math.min(rows - 1, Math.floor(bounds.bottom / cellSize))`. -/
def endRow (g : GridParams) (b : Bounds) : ℤ :=
  min (gridRows g - 1) ⌊b.bottom / g.cellSize⌋

/-- Whether cell `(row, col)` lies in the clamped cell range of bounds
`b` — the set of cells the double loop in `insert` / `getNearbyObjects`
visits. -/
def inCellRange (g : GridParams) (b : Bounds) (row col : ℤ) : Bool :=
  startRow g b ≤ row && row ≤ endRow g b &&
  startCol g b ≤ col && col ≤ endCol g b

/-- The list of `n` consecutive integers starting at `lo`. -/
def rangeIntsAux (lo : ℤ) : Nat → List ℤ
  | 0 => []
  | n + 1 => lo :: rangeIntsAux (lo + 1) n

/-- The list of integers `lo, lo+1, ..., hi` (empty when `hi < lo`):
the index sequence of a `for (let i = lo; i <= hi; i++)` loop. -/
def rangeInts (lo hi : ℤ) : List ℤ :=
  rangeIntsAux lo (hi + 1 - lo).toNat

/-- Embedding of `SpatialGrid.insert` (src/unnamed/part_007 lines 416-429): push the
object's id into every cell of its clamped range. -/
def gridInsert (g : GridParams) (cells : ℤ × ℤ → List Nat) (o : Entity) :
    ℤ × ℤ → List Nat :=
  fun rc =>
    if inCellRange g (getBounds o) rc.1 rc.2 then cells rc ++ [o.id]
    else cells rc

/-- Embedding of `CollisionSystem.updateSpatialGrid` (src/unnamed/part_007 lines 53-62):
clear, then insert every active object. -/
def buildGrid (g : GridParams) (objs : List Entity) : ℤ × ℤ → List Nat :=
  objs.foldl (fun cells o => if o.active then gridInsert g cells o else cells)
    (fun _ => [])

/-- Embedding of `SpatialGrid.getNearbyObjects` (src/unnamed/part_007 lines 437-458):
iterate the cells of `b`'s clamped range, keeping inserted objects that are
in the caller's target list and are not the query object itself; the
source accumulates into a `Set`, here `dedup`. -/
def getNearbyIds (g : GridParams) (cells : ℤ × ℤ → List Nat) (b : Bounds)
    (selfId : Nat) (targets : List Nat) : List Nat :=
  ((rangeInts (startRow g b) (endRow g b)).flatMap (fun row =>
    (rangeInts (startCol g b) (endCol g b)).flatMap (fun col =>
      (cells (row, col)).filter
        (fun i => targets.contains i && i ≠ selfId)))).dedup

/-! ## Per-frame collision pass (`CollisionSystem.performCollisionDetection`)

The registry `gameEngine.gameObjects` is a list of live objects mutated in
place by the hooks; it is embedded as a list of `Entity` values (the
store), with reads and writes going through the object's id (the embedding
of a JS reference).  Each category check captures its id lists up front,
exactly as the source captures arrays of references, and re-reads current
states from the store at use sites. -/

/-- Read the (unique) object with a given id, `none` if absent. -/
def getById (st : List Entity) (i : Nat) : Option Entity :=
  st.find? (fun o => o.id = i)

/-- Write back an updated object over the first entry with id `i`,
modelling in-place mutation of the referenced object. -/
def setById (st : List Entity) (i : Nat) (e : Entity) : List Entity :=
  match st with
  | [] => []
  | o :: rest => if o.id = i then e :: rest else o :: setById rest i e

/-- State threaded through the collision pass: the registry, the per-frame
dedup set, and the accumulated hook-invocation log. -/
structure PassState where
  store : List Entity
  pairs : List (Nat × Nat)
  log : List (Nat × Nat)
deriving Repr

/-- One dispatcher call `handleCollision(obj_{i1}, obj_{i2})` acting on the
store.  Both ids are always present in the source (they come from filters
over the registry); the `none` branches keep the function total. -/
def handleCollisionStore (hooks : Role → Option HookFn) (s : PassState)
    (i1 i2 : Nat) : PassState :=
  match getById s.store i1, getById s.store i2 with
  | some o1, some o2 =>
    let d := handleCollision hooks s.pairs o1 o2
    { store := setById (setById s.store i1 d.o1) i2 d.o2,
      pairs := d.pairs, log := s.log ++ d.log }
  | _, _ => s

/-- The ids of the active objects of one role, as captured by the
`filter(obj => obj instanceof C && obj.active)` at the start of a category
check. -/
def activeIds (st : List Entity) (r : Role) : List Nat :=
  (st.filter (fun o => o.role = r && o.active)).map (fun o => o.id)

/-- Embedding of `find(obj => obj instanceof Player && obj.active)`. -/
def findActiveId (st : List Entity) (r : Role) : Option Nat :=
  (st.find? (fun o => o.role = r && o.active)).map (fun o => o.id)

/-- Embedding of `CollisionSystem.checkPlayerBulletEnemyCollisions` (src/unnamed/part_007
lines 92-113): for each player bullet, query the grid for nearby enemies
and dispatch on each confirmed `checkCollision`. -/
def checkPlayerBulletEnemyCollisions (g : GridParams)
    (cells : ℤ × ℤ → List Nat) (hooks : Role → Option HookFn)
    (s : PassState) : PassState :=
  let bulletIds := activeIds s.store Role.playerBullet
  let enemyIds := activeIds s.store Role.enemy
  bulletIds.foldl
    (fun s bid =>
      match getById s.store bid with
      | none => s
      | some bullet =>
        let nearby := getNearbyIds g cells (getBounds bullet) bid enemyIds
        nearby.foldl
          (fun s eid =>
            match getById s.store bid, getById s.store eid with
            | some b, some e =>
              if checkCollision b e then handleCollisionStore hooks s bid eid
              else s
            | _, _ => s)
          s)
    s

/-- Embedding of `CollisionSystem.checkEnemyBulletPlayerCollisions` (src/unnamed/part_007
lines 118-136). -/
def checkEnemyBulletPlayerCollisions (hooks : Role → Option HookFn)
    (s : PassState) : PassState :=
  let bulletIds := activeIds s.store Role.enemyBullet
  match findActiveId s.store Role.player with
  | none => s
  | some pid =>
    bulletIds.foldl
      (fun s bid =>
        match getById s.store bid, getById s.store pid with
        | some b, some p =>
          if checkCollision b p then handleCollisionStore hooks s bid pid
          else s
        | _, _ => s)
      s

/-- Embedding of `CollisionSystem.checkPlayerEnemyCollisions` (src/unnamed/part_007
lines 141-159). -/
def checkPlayerEnemyCollisions (hooks : Role → Option HookFn)
    (s : PassState) : PassState :=
  match findActiveId s.store Role.player with
  | none => s
  | some pid =>
    let enemyIds := activeIds s.store Role.enemy
    enemyIds.foldl
      (fun s eid =>
        match getById s.store pid, getById s.store eid with
        | some p, some e =>
          if checkCollision p e then handleCollisionStore hooks s pid eid
          else s
        | _, _ => s)
      s

/-- Embedding of `CollisionSystem.checkPlayerWeaponPickupCollisions`
(src/unnamed/part_007 lines 164-197): flat `distance <= 30` proximity test
first, otherwise the normal `checkCollision`. -/
def checkPlayerWeaponPickupCollisions (hooks : Role → Option HookFn)
    (s : PassState) : PassState :=
  match findActiveId s.store Role.player with
  | none => s
  | some pid =>
    let pickupIds := activeIds s.store Role.weaponPickup
    pickupIds.foldl
      (fun s kid =>
        match getById s.store pid, getById s.store kid with
        | some p, some k =>
          if sqrtLe (distSq p k) 30 then handleCollisionStore hooks s pid kid
          else if checkCollision p k then handleCollisionStore hooks s pid kid
          else s
        | _, _ => s)
      s

/-- Embedding of `CollisionSystem.update` in the `enabled`, `debugMode = false`
configuration (src/unnamed/part_007 lines 32-87): rebuild the grid from the
active objects, clear the dedup set, then run the four category checks in
order (the debug-only bullet↔bullet check is off).  Returns the updated
registry and the hook-invocation log. -/
def collisionPass (g : GridParams) (hooks : Role → Option HookFn)
    (objs : List Entity) : List Entity × List (Nat × Nat) :=
  let cells := buildGrid g objs
  let s0 : PassState := { store := objs, pairs := [], log := [] }
  let s1 := checkPlayerBulletEnemyCollisions g cells hooks s0
  let s2 := checkEnemyBulletPlayerCollisions hooks s1
  let s3 := checkPlayerEnemyCollisions hooks s2
  let s4 := checkPlayerWeaponPickupCollisions hooks s3
  (s4.store, s4.log)

/-! ## Engine update phase and fixed-timestep scheduler
(`GameEngine`, src/unnamed/part_000 lines 216-416)

`GameEngine.update` iterates `gameObjects` backwards, calling
`obj.update(deltaTime)` and then splicing the object out when
`obj.shouldDestroy` is set.  Backward iteration with removal of the
current index visits every element exactly once, so the loop is embedded
as a right fold that drops updated objects whose `shouldDestroy` flag is
set.  The per-object `update` is a dynamic dispatch on the object, so
`updateLoop` is parametric in it; `objUpdate` below is the base
`GameObject.update`, used to instantiate concrete scenarios (every
subclass override in this repository likewise begins with
`if (!this.active) return` and never clears `shouldDestroy`).
Subsystems outside the collision core (scene manager, damage text, level
manager, game-state manager, UI) do not touch the modelled state and are
not represented. -/

/-- The registry loop of `GameEngine.update` (src/unnamed/part_000 lines
370-380): per-object update followed by the `shouldDestroy` splice. -/
def updateLoop (f : Entity → Entity) (objs : List Entity) : List Entity :=
  objs.foldr
    (fun o acc =>
      let o1 := f o
      if o1.shouldDestroy then acc else o1 :: acc)
    []

/-- Embedding of `GameObject.update` plus `checkBounds` / `onOutOfBounds`
(src/unnamed/part_002 lines 46-99) for world size `W × H`: inactive
objects are untouched; otherwise integrate velocity and destroy the object
when it is entirely outside the world (the base-class policy; the player
clamps instead and the enemy uses a deeper threshold, neither of which the
scenarios below exercise). -/
def objUpdate (W H dt : ℚ) (o : Entity) : Entity :=
  if !o.active then o
  else
    let o := { o with x := o.x + o.vx * (dt / 1000),
                      y := o.y + o.vy * (dt / 1000) }
    if o.x + o.width / 2 < 0 || o.x - o.width / 2 > W ||
       o.y + o.height / 2 < 0 || o.y - o.height / 2 > H then destroyE o
    else o

/-- Embedding of `GameEngine.update` (src/unnamed/part_000 lines 365-398) restricted to
the collision core: the registry update-and-splice loop, then (while in
game, with collisions enabled) the collision pass.  Returns the registry
as it stands at the end of the frame together with the frame's
hook-invocation log. -/
def engineUpdate (f : Entity → Entity) (inGame collisionEnabled : Bool)
    (g : GridParams) (hooks : Role → Option HookFn) (objs : List Entity) :
    List Entity × List (Nat × Nat) :=
  let objs1 := updateLoop f objs
  if inGame && collisionEnabled then collisionPass g hooks objs1
  else (objs1, [])

/-- Embedding of `this.frameInterval = 1000 / this.targetFPS` with `targetFPS = 60`. -/
def frameInterval : ℚ := 1000 / 60

/-- The JS remainder `a % b` for `a ≥ 0 < b` (the only case the loop
evaluates, since there `deltaTime ≥ frameInterval > 0`). -/
def jsMod (a b : ℚ) : ℚ := a - b * (⌊a / b⌋ : ℤ)

/-- The scheduler state of `GameEngine`. -/
structure Engine where
  isRunning : Bool
  isPaused : Bool
  lastTime : ℚ
  frameCount : Nat
  fpsTimer : ℚ
  currentFPS : Nat
  inGame : Bool
  collisionEnabled : Bool
  width : ℚ
  height : ℚ
  objects : List Entity
deriving Repr

/-- What one tick did: `frames` = 1 when the `deltaTime >= frameInterval`
gate passed (one simulation step in the sense of spec §4.5), `steps` =
number of `update(deltaTime)` calls, `hooks` = collision hooks fired. -/
structure TickReport where
  frames : Nat
  steps : Nat
  hooks : List (Nat × Nat)
deriving Repr

/-- One invocation of `GameEngine.gameLoop` (src/unnamed/part_000 lines
324-359) driven by the wall clock `currentTime` and this tick's
pause-toggle signal (`InputManager.isPausePressed`, src/unnamed/part_004):
when at least one frame interval has elapsed, do FPS bookkeeping, always
poll the pause toggle (`handlePauseInput`, lines 412-416), run `update`
once unless paused, render (no modelled state), and roll `lastTime`
forward to `currentTime - deltaTime % frameInterval`.  The trailing
`requestAnimationFrame` only schedules the next tick. -/
def gameLoopTick (f : Entity → Entity) (hooks : Role → Option HookFn)
    (e : Engine) (currentTime : ℚ) (pausePressed : Bool) :
    Engine × TickReport :=
  if !e.isRunning then (e, { frames := 0, steps := 0, hooks := [] })
  else
    let deltaTime := currentTime - e.lastTime
    if frameInterval ≤ deltaTime then
      let frameCount := e.frameCount + 1
      let fpsTimer := e.fpsTimer + deltaTime
      let fps :=
        if 1000 ≤ fpsTimer then (frameCount, 0, (0 : ℚ))
        else (e.currentFPS, frameCount, fpsTimer)
      let isPaused := if pausePressed then !e.isPaused else e.isPaused
      let upd :=
        if !isPaused then
          let r := engineUpdate f e.inGame e.collisionEnabled
            { width := e.width, height := e.height, cellSize := 64 }
            hooks e.objects
          (r.1, r.2, 1)
        else (e.objects, [], 0)
      ({ e with isPaused := isPaused,
                lastTime := currentTime - jsMod deltaTime frameInterval,
                frameCount := fps.2.1, fpsTimer := fps.2.2,
                currentFPS := fps.1, objects := upd.1 },
       { frames := 1, steps := upd.2.2, hooks := upd.2.1 })
    else (e, { frames := 0, steps := 0, hooks := [] })

/-! ## Helper lemmas -/

/-- The remainder `jsMod a b` is nonnegative and below `b` for `0 ≤ a` and `0 < b`. -/
theorem jsMod_bounds (a b : ℚ) (hb : 0 < b) :
    (0 ≤ a → 0 ≤ jsMod a b) ∧ jsMod a b < b := by
  constructor
  · intro _
    have h := Int.floor_le (a / b)
    have : (⌊a / b⌋ : ℚ) * b ≤ a / b * b := by
      exact mul_le_mul_of_nonneg_right h (le_of_lt hb)
    rw [div_mul_cancel₀ a (ne_of_gt hb)] at this
    unfold jsMod
    linarith [this]
  · have h := Int.lt_floor_add_one (a / b)
    have : a / b * b < ((⌊a / b⌋ : ℚ) + 1) * b := by
      exact mul_lt_mul_of_pos_right h hb
    rw [div_mul_cancel₀ a (ne_of_gt hb)] at this
    unfold jsMod
    nlinarith [this]

/-- The constant `frameInterval` is positive. -/
theorem frameInterval_pos : (0 : ℚ) < frameInterval := by
  unfold frameInterval; norm_num

/-- A concrete scheduler state: running, unpaused, `lastTime = 0`, empty
registry (the menu scene, `inGame = false`, so a step is pure scheduler
work). -/
def schedEngine : Engine :=
  { isRunning := true, isPaused := false, lastTime := 0, frameCount := 0,
    fpsTimer := 0, currentFPS := 0, inGame := false,
    collisionEnabled := true, width := 800, height := 600, objects := [] }

/-- The same state, paused, with one entity in the registry and the game
scene active. -/
def pausedEngine : Engine :=
  { isRunning := true, isPaused := true, lastTime := 0, frameCount := 0,
    fpsTimer := 0, currentFPS := 0, inGame := true,
    collisionEnabled := true, width := 800, height := 600,
    objects := [mkEntity 7 Role.enemy 100 100 24 16] }

/-- C2 counterexample: a tick that observes 40 ms of elapsed time runs 1
simulation step, not the 2 steps the claim asserts. -/
theorem c2_forty_ms_two_steps_counterexample :
    ¬ ((gameLoopTick (objUpdate 800 600 40) gameHooks schedEngine 40
        false).2.steps = 2) := by
  norm_num [gameLoopTick, schedEngine, engineUpdate, updateLoop,
    frameInterval]

/-- C2 amended: a tick observing 40 ms of accumulated elapsed time with
frame interval 1000/60 runs exactly 1 full simulation step, and the
accumulator retains exactly 20/3 ≈ 6.67 ms (the new `lastTime` is
40 − 20/3). -/
theorem c2_forty_ms_single_step_remainder :
    (gameLoopTick (objUpdate 800 600 40) gameHooks schedEngine 40
        false).2.steps = 1 ∧
    40 - (gameLoopTick (objUpdate 800 600 40) gameHooks schedEngine 40
        false).1.lastTime = 20 / 3 := by
  constructor
  · norm_num [gameLoopTick, schedEngine, engineUpdate, updateLoop,
      frameInterval]
  · norm_num [gameLoopTick, schedEngine, engineUpdate, updateLoop,
      frameInterval, jsMod]

/-- On a gate-passing tick, the report's `frames` is 1. -/
theorem gameLoopTick_frames_eq (f : Entity → Entity)
    (hooks : Role → Option HookFn) (e : Engine) (t : ℚ) (p : Bool)
    (hRun : e.isRunning = true)
    (hdt : frameInterval ≤ t - e.lastTime) :
    (gameLoopTick f hooks e t p).2.frames = 1 := by
  by_cases hp : (if p then !e.isPaused else e.isPaused) = true <;>
    simp [gameLoopTick, hRun, hdt, hp]

/-- On a gate-passing tick, the new `lastTime` is
`currentTime - deltaTime % frameInterval`. -/
theorem gameLoopTick_lastTime_eq (f : Entity → Entity)
    (hooks : Role → Option HookFn) (e : Engine) (t : ℚ) (p : Bool)
    (hRun : e.isRunning = true)
    (hdt : frameInterval ≤ t - e.lastTime) :
    (gameLoopTick f hooks e t p).1.lastTime =
      t - jsMod (t - e.lastTime) frameInterval := by
  by_cases hp : (if p then !e.isPaused else e.isPaused) = true <;>
    simp [gameLoopTick, hRun, hdt, hp]

/-- On a gate-passing tick, the pause flag after `handlePauseInput`. -/
theorem gameLoopTick_isPaused_eq (f : Entity → Entity)
    (hooks : Role → Option HookFn) (e : Engine) (t : ℚ) (p : Bool)
    (hRun : e.isRunning = true)
    (hdt : frameInterval ≤ t - e.lastTime) :
    (gameLoopTick f hooks e t p).1.isPaused =
      (if p then !e.isPaused else e.isPaused) := by
  by_cases hp : (if p then !e.isPaused else e.isPaused) = true <;>
    simp [gameLoopTick, hRun, hdt, hp]

/-- On a gate-passing tick, `update` runs once exactly when the toggled
pause flag is off. -/
theorem gameLoopTick_steps_eq (f : Entity → Entity)
    (hooks : Role → Option HookFn) (e : Engine) (t : ℚ) (p : Bool)
    (hRun : e.isRunning = true)
    (hdt : frameInterval ≤ t - e.lastTime) :
    (gameLoopTick f hooks e t p).2.steps =
      (if (if p then !e.isPaused else e.isPaused) = true then 0 else 1) := by
  by_cases hp : (if p then !e.isPaused else e.isPaused) = true <;>
    simp [gameLoopTick, hRun, hdt, hp]

/-- On a gate-passing tick, the registry is updated through `engineUpdate`
when unpaused and untouched when paused, and the fired hooks are the
frame's collision log (empty when paused). -/
theorem gameLoopTick_objects_eq (f : Entity → Entity)
    (hooks : Role → Option HookFn) (e : Engine) (t : ℚ) (p : Bool)
    (hRun : e.isRunning = true)
    (hdt : frameInterval ≤ t - e.lastTime) :
    (gameLoopTick f hooks e t p).1.objects =
      (if (if p then !e.isPaused else e.isPaused) = true then e.objects
       else (engineUpdate f e.inGame e.collisionEnabled
         { width := e.width, height := e.height, cellSize := 64 }
         hooks e.objects).1) ∧
    (gameLoopTick f hooks e t p).2.hooks =
      (if (if p then !e.isPaused else e.isPaused) = true then []
       else (engineUpdate f e.inGame e.collisionEnabled
         { width := e.width, height := e.height, cellSize := 64 }
         hooks e.objects).2) := by
  by_cases hp : (if p then !e.isPaused else e.isPaused) = true <;>
    simp [gameLoopTick, hRun, hdt, hp]

/-- Sub-interval ticks do nothing: engine state and report are trivial. -/
theorem gameLoopTick_below_gate (f : Entity → Entity)
    (hooks : Role → Option HookFn) (e : Engine) (t : ℚ) (p : Bool)
    (hdt : ¬ frameInterval ≤ t - e.lastTime) :
    gameLoopTick f hooks e t p =
      (e, { frames := 0, steps := 0, hooks := [] }) := by
  by_cases hr : e.isRunning = true <;> simp [gameLoopTick, hr, hdt]

/-- C5: on every tick where the elapsed time since the last recorded tick
is at least the fixed frame interval, exactly one simulation step runs
(the gated loop body; the number of catch-up `update` calls is capped at
1, with exactly one `update` whenever the frame leaves the engine
unpaused), and the accumulator carries to the next tick exactly the
leftover `elapsed % frameInterval`, which is nonnegative and below one
frame interval — excess whole intervals are discarded. -/
theorem c5_tick_one_step_mod_carry (f : Entity → Entity)
    (hooks : Role → Option HookFn) (e : Engine) (t : ℚ) (p : Bool)
    (hRun : e.isRunning = true)
    (hdt : frameInterval ≤ t - e.lastTime) :
    (gameLoopTick f hooks e t p).2.frames = 1 ∧
    (gameLoopTick f hooks e t p).2.steps ≤ 1 ∧
    ((gameLoopTick f hooks e t p).1.isPaused = false →
      (gameLoopTick f hooks e t p).2.steps = 1) ∧
    t - (gameLoopTick f hooks e t p).1.lastTime =
      jsMod (t - e.lastTime) frameInterval ∧
    0 ≤ t - (gameLoopTick f hooks e t p).1.lastTime ∧
    t - (gameLoopTick f hooks e t p).1.lastTime < frameInterval := by
  have hdt0 : 0 ≤ t - e.lastTime :=
    le_trans (le_of_lt frameInterval_pos) hdt
  have hbounds := jsMod_bounds (t - e.lastTime) frameInterval
    frameInterval_pos
  have hlt := gameLoopTick_lastTime_eq f hooks e t p hRun hdt
  have hst := gameLoopTick_steps_eq f hooks e t p hRun hdt
  have hip := gameLoopTick_isPaused_eq f hooks e t p hRun hdt
  have hcarry : t - (gameLoopTick f hooks e t p).1.lastTime =
      jsMod (t - e.lastTime) frameInterval := by rw [hlt]; ring
  refine ⟨gameLoopTick_frames_eq f hooks e t p hRun hdt, ?_, ?_, hcarry,
    ?_, ?_⟩
  · rw [hst]
    by_cases hq : (if p = true then !e.isPaused else e.isPaused) = true
    · simp [hq]
    · simp [hq]
  · intro hpf
    rw [hip] at hpf
    rw [hst, hpf]
    norm_num
  · rw [hcarry]; exact hbounds.1 hdt0
  · rw [hcarry]; exact hbounds.2

/-- C5 witness at a concrete state and tick. -/
theorem c5_tick_one_step_mod_carry_witness :
    (gameLoopTick (objUpdate 800 600 40) gameHooks schedEngine 40
        false).2.frames = 1 ∧
    (gameLoopTick (objUpdate 800 600 40) gameHooks schedEngine 40
        false).2.steps ≤ 1 ∧
    ((gameLoopTick (objUpdate 800 600 40) gameHooks schedEngine 40
        false).1.isPaused = false →
      (gameLoopTick (objUpdate 800 600 40) gameHooks schedEngine 40
        false).2.steps = 1) ∧
    40 - (gameLoopTick (objUpdate 800 600 40) gameHooks schedEngine 40
        false).1.lastTime =
      jsMod (40 - schedEngine.lastTime) frameInterval ∧
    0 ≤ 40 - (gameLoopTick (objUpdate 800 600 40) gameHooks schedEngine 40
        false).1.lastTime ∧
    40 - (gameLoopTick (objUpdate 800 600 40) gameHooks schedEngine 40
        false).1.lastTime < frameInterval :=
  c5_tick_one_step_mod_carry (objUpdate 800 600 40) gameHooks schedEngine
    40 false rfl (by norm_num [schedEngine, frameInterval])

/-- C6: while the game is paused, every tick (whether or not it passes the
frame-interval gate) leaves the registry — in particular every entity's
position — unchanged, keeps the game paused, fires no collision hook and
runs no update step, when no pause toggle arrives; yet the pause input is
polled on every gate-passing tick even while paused, so a toggle arriving
while paused resumes the game on that tick. -/
theorem c6_pause_invariance (f : Entity → Entity)
    (hooks : Role → Option HookFn) (e : Engine)
    (hRun : e.isRunning = true) (hP : e.isPaused = true) :
    (∀ t : ℚ, (gameLoopTick f hooks e t false).1.objects = e.objects ∧
      (gameLoopTick f hooks e t false).1.isPaused = true ∧
      (gameLoopTick f hooks e t false).2.hooks = [] ∧
      (gameLoopTick f hooks e t false).2.steps = 0) ∧
    (∀ t : ℚ, frameInterval ≤ t - e.lastTime →
      (gameLoopTick f hooks e t true).1.isPaused = false) := by
  constructor
  · intro t
    by_cases hdt : frameInterval ≤ t - e.lastTime
    · have hobj := gameLoopTick_objects_eq f hooks e t false hRun hdt
      have hip := gameLoopTick_isPaused_eq f hooks e t false hRun hdt
      have hst := gameLoopTick_steps_eq f hooks e t false hRun hdt
      refine ⟨?_, ?_, ?_, ?_⟩
      · rw [hobj.1]; simp [hP]
      · rw [hip]; simp [hP]
      · rw [hobj.2]; simp [hP]
      · rw [hst]; simp [hP]
    · rw [gameLoopTick_below_gate f hooks e t false hdt]
      exact ⟨rfl, hP, rfl, rfl⟩
  · intro t hdt
    rw [gameLoopTick_isPaused_eq f hooks e t true hRun hdt]
    simp [hP]

/-- C6 witness at a concrete paused state: an unpressed tick at 20 ms
changes nothing, and a pause press at 20 ms resumes. -/
theorem c6_pause_invariance_witness :
    (∀ t : ℚ,
      (gameLoopTick (objUpdate 800 600 20) gameHooks pausedEngine t
        false).1.objects = pausedEngine.objects ∧
      (gameLoopTick (objUpdate 800 600 20) gameHooks pausedEngine t
        false).1.isPaused = true ∧
      (gameLoopTick (objUpdate 800 600 20) gameHooks pausedEngine t
        false).2.hooks = [] ∧
      (gameLoopTick (objUpdate 800 600 20) gameHooks pausedEngine t
        false).2.steps = 0) ∧
    (∀ t : ℚ, frameInterval ≤ t - pausedEngine.lastTime →
      (gameLoopTick (objUpdate 800 600 20) gameHooks pausedEngine t
        true).1.isPaused = false) :=
  c6_pause_invariance (objUpdate 800 600 20) gameHooks pausedEngine
    rfl rfl

/-- A point lies inside (or on the boundary of) an entity's axis-aligned
box. -/
def inBox (o : Entity) (px py : ℚ) : Prop :=
  (getBounds o).left ≤ px ∧ px ≤ (getBounds o).right ∧
  (getBounds o).top ≤ py ∧ py ≤ (getBounds o).bottom

/-- C8: for two active entities that are not a player↔pickup pair
(nonnegative extents), the default narrow-phase predicate is the
axis-aligned box test, and it returns `true` exactly when the two boxes
genuinely overlap, i.e. share at least one point — equivalently, when
neither box is entirely to one side of the other along either axis. -/
theorem c8_default_predicate_is_box_overlap (o1 o2 : Entity)
    (h1 : o1.active = true) (h2 : o2.active = true)
    (hwp : isPlayerPickupPair o1 o2 = false)
    (hw1 : 0 ≤ o1.width) (hh1 : 0 ≤ o1.height)
    (hw2 : 0 ≤ o2.width) (hh2 : 0 ≤ o2.height) :
    checkCollision o1 o2 = checkAABBCollision o1 o2 ∧
    (checkCollision o1 o2 = true ↔
      ∃ px py : ℚ, inBox o1 px py ∧ inBox o2 px py) := by
  have hroute : checkCollision o1 o2 = checkAABBCollision o1 o2 := by
    simp [checkCollision, h1, h2, hwp]
  refine ⟨hroute, ?_⟩
  rw [hroute]
  unfold checkAABBCollision getBounds
  simp only [Bool.not_eq_eq_eq_not, Bool.not_true, Bool.or_eq_false_iff,
    decide_eq_false_iff_not, not_lt]
  constructor
  · rintro ⟨⟨⟨hx1, hx2⟩, hy1⟩, hy2⟩
    refine ⟨max (o1.x - o1.width / 2) (o2.x - o2.width / 2),
            max (o1.y - o1.height / 2) (o2.y - o2.height / 2),
            ⟨le_max_left _ _, ?_, le_max_left _ _, ?_⟩,
            ⟨le_max_right _ _, ?_, le_max_right _ _, ?_⟩⟩ <;>
      · unfold inBox getBounds at *
        apply max_le <;> linarith
  · rintro ⟨px, py, hA, hB⟩
    unfold inBox getBounds at hA hB
    obtain ⟨a1, a2, a3, a4⟩ := hA
    obtain ⟨b1, b2, b3, b4⟩ := hB
    refine ⟨⟨⟨?_, ?_⟩, ?_⟩, ?_⟩ <;> linarith

/-- C8 witness: spec scenario 1, a 4×4 player bullet at (100,100) and a
16×16 enemy at (100,104). -/
theorem c8_default_predicate_is_box_overlap_witness :
    checkCollision (mkEntity 1 Role.playerBullet 100 100 4 4)
        (mkEntity 2 Role.enemy 100 104 16 16) =
      checkAABBCollision (mkEntity 1 Role.playerBullet 100 100 4 4)
        (mkEntity 2 Role.enemy 100 104 16 16) ∧
    (checkCollision (mkEntity 1 Role.playerBullet 100 100 4 4)
        (mkEntity 2 Role.enemy 100 104 16 16) = true ↔
      ∃ px py : ℚ, inBox (mkEntity 1 Role.playerBullet 100 100 4 4) px py ∧
        inBox (mkEntity 2 Role.enemy 100 104 16 16) px py) :=
  c8_default_predicate_is_box_overlap _ _ rfl rfl rfl
    (by norm_num [mkEntity]) (by norm_num [mkEntity])
    (by norm_num [mkEntity]) (by norm_num [mkEntity])

/-- C10: exact edge contact counts as collision.  For two active entities
with nonnegative extents whose boxes touch exactly along an edge — the
first box's right edge coordinate equals the second box's left edge
coordinate, with overlapping extent on the y axis — both the AABB test and
`GameObject.collidesWith` report a collision, because the comparisons are
strict and edge contact does not satisfy any of them. -/
theorem c10_edge_contact_collides (o1 o2 : Entity)
    (h1 : o1.active = true) (h2 : o2.active = true)
    (hw1 : 0 ≤ o1.width) (hw2 : 0 ≤ o2.width)
    (hedge : (getBounds o1).right = (getBounds o2).left)
    (hy1 : (getBounds o1).top ≤ (getBounds o2).bottom)
    (hy2 : (getBounds o2).top ≤ (getBounds o1).bottom) :
    checkAABBCollision o1 o2 = true ∧ collidesWith o1 o2 = true := by
  unfold getBounds at hedge hy1 hy2
  simp only at hedge hy1 hy2
  constructor
  · unfold checkAABBCollision getBounds
    simp only [Bool.not_eq_eq_eq_not, Bool.not_true, Bool.or_eq_false_iff,
      decide_eq_false_iff_not, not_lt]
    refine ⟨⟨⟨?_, ?_⟩, ?_⟩, ?_⟩ <;> linarith
  · unfold collidesWith
    simp only [h1, h2, Bool.not_true, Bool.or_self, Bool.false_eq_true,
      if_false, Bool.not_eq_eq_eq_not, Bool.or_eq_false_iff,
      decide_eq_false_iff_not, not_lt]
    refine ⟨⟨⟨?_, ?_⟩, ?_⟩, ?_⟩ <;> linarith

/-- C10 witness: a 4×4 box at (100,100) and a 16×16 box at (110,104)
touch exactly at x = 102 and are reported as colliding. -/
theorem c10_edge_contact_collides_witness :
    checkAABBCollision (mkEntity 1 Role.playerBullet 100 100 4 4)
        (mkEntity 2 Role.enemy 110 104 16 16) = true ∧
    collidesWith (mkEntity 1 Role.playerBullet 100 100 4 4)
        (mkEntity 2 Role.enemy 110 104 16 16) = true :=
  c10_edge_contact_collides _ _ rfl rfl
    (by norm_num [mkEntity]) (by norm_num [mkEntity])
    (by norm_num [mkEntity, getBounds]) (by norm_num [mkEntity, getBounds])
    (by norm_num [mkEntity, getBounds])

/-- C9: when the dispatcher resolves a confirmed, non-deduplicated
collision (the pair is either dedup-exempt or its key is not yet
recorded), it invokes `a.onCollision(b)` first and `b.onCollision(a)`
second — the invocation log is exactly `[(a,b)]` followed by `[(b,a)]`,
each entry present precisely when that side's hook exists — and an absent
hook is a no-op for its side rather than an error: with both hooks absent
the entities come back unchanged.  (The hypothesis `hpres` states that
hooks do not rewrite an object's identity or class, which JavaScript
guarantees for every hook: mutating a referenced object never changes the
reference or the object's class.) -/
theorem c9_dispatch_order_and_absent_hook_noop
    (hooks : Role → Option HookFn) (pairs : List (Nat × Nat))
    (o1 o2 : Entity)
    (hpres : ∀ r f, hooks r = some f → ∀ s o : Entity,
      (f s o).1.id = s.id ∧ (f s o).2.id = o.id ∧ (f s o).2.role = o.role)
    (hnew : isPlayerPickupPair o1 o2 = true ∨ (o1.id, o2.id) ∉ pairs) :
    (handleCollision hooks pairs o1 o2).log =
      (if (hooks o1.role).isSome then [(o1.id, o2.id)] else []) ++
      (if (hooks o2.role).isSome then [(o2.id, o1.id)] else []) ∧
    (hooks o1.role = none → hooks o2.role = none →
      (handleCollision hooks pairs o1 o2).o1 = o1 ∧
      (handleCollision hooks pairs o1 o2).o2 = o2) := by
  have hni : ¬(isPlayerPickupPair o1 o2 = false ∧
      (o1.id, o2.id) ∈ pairs) := by
    rcases hnew with h | h
    · rintro ⟨hf, _⟩; rw [h] at hf; cases hf
    · rintro ⟨_, hm⟩; exact h hm
  cases h1 : hooks o1.role with
  | none =>
    cases h2 : hooks o2.role with
    | none =>
      refine ⟨?_, fun _ _ => ⟨?_, ?_⟩⟩ <;>
        simp [handleCollision, h1, h2, hni]
    | some g =>
      refine ⟨?_, fun _ hc2 => ?_⟩
      · simp [handleCollision, h1, h2, hni]
      · simp [h2] at hc2
  | some f =>
    have hids := hpres o1.role f h1 o1 o2
    cases h2 : hooks o2.role with
    | none =>
      refine ⟨?_, fun hc1 _ => ?_⟩
      · simp [handleCollision, h1, hids.2.2, h2, hni, hids.1, hids.2.1]
      · simp [h1] at hc1
    | some g =>
      refine ⟨?_, fun hc1 _ => ?_⟩
      · simp [handleCollision, h1, hids.2.2, h2, hni, hids.1, hids.2.1]
      · simp [h1] at hc1

/-- C9 witness: a hook map where every role has the identity-pair hook, on
a fresh bullet↔enemy pair — both invocations are logged in order. -/
theorem c9_dispatch_order_and_absent_hook_noop_witness :
    (handleCollision (fun _ => some (fun s o => (s, o))) []
      (mkEntity 1 Role.playerBullet 100 100 4 4)
      (mkEntity 2 Role.enemy 100 104 16 16)).log =
      (if ((fun (_ : Role) => some (fun (s o : Entity) => (s, o)))
          (mkEntity 1 Role.playerBullet 100 100 4 4).role).isSome then
        [((mkEntity 1 Role.playerBullet 100 100 4 4).id,
          (mkEntity 2 Role.enemy 100 104 16 16).id)] else []) ++
      (if ((fun (_ : Role) => some (fun (s o : Entity) => (s, o)))
          (mkEntity 2 Role.enemy 100 104 16 16).role).isSome then
        [((mkEntity 2 Role.enemy 100 104 16 16).id,
          (mkEntity 1 Role.playerBullet 100 100 4 4).id)] else []) ∧
    ((fun (_ : Role) => some (fun (s o : Entity) => (s, o)))
        (mkEntity 1 Role.playerBullet 100 100 4 4).role = none →
      (fun (_ : Role) => some (fun (s o : Entity) => (s, o)))
        (mkEntity 2 Role.enemy 100 104 16 16).role = none →
      (handleCollision (fun _ => some (fun s o => (s, o))) []
        (mkEntity 1 Role.playerBullet 100 100 4 4)
        (mkEntity 2 Role.enemy 100 104 16 16)).o1 =
          mkEntity 1 Role.playerBullet 100 100 4 4 ∧
      (handleCollision (fun _ => some (fun s o => (s, o))) []
        (mkEntity 1 Role.playerBullet 100 100 4 4)
        (mkEntity 2 Role.enemy 100 104 16 16)).o2 =
          mkEntity 2 Role.enemy 100 104 16 16) :=
  c9_dispatch_order_and_absent_hook_noop
    (fun _ => some (fun s o => (s, o))) []
    (mkEntity 1 Role.playerBullet 100 100 4 4)
    (mkEntity 2 Role.enemy 100 104 16 16)
    (by intro r f h s o
        injection h with h
        rw [← h]
        exact ⟨rfl, rfl, rfl⟩)
    (Or.inr (by simp))

/-- C3 counterexample: the dedup key does not identify the unordered pair.
With the game's own hooks, dispatching the same two (non-pickup) entities
first as `(A, B)` and then as `(B, A)` fires the pair's hooks twice: the
recorded key `(5, 6)` does not match the second call's key `(6, 5)`, so
the unordered pair {A, B} is resolved twice in one frame's dedup scope. -/
theorem c3_unordered_key_counterexample :
    (handleCollision gameHooks []
      (mkEntity 5 Role.enemy 100 100 24 16)
      (mkEntity 6 Role.playerBullet 100 100 4 4)).log.length = 2 ∧
    (handleCollision gameHooks
      (handleCollision gameHooks []
        (mkEntity 5 Role.enemy 100 100 24 16)
        (mkEntity 6 Role.playerBullet 100 100 4 4)).pairs
      (mkEntity 6 Role.playerBullet 100 100 4 4)
      (mkEntity 5 Role.enemy 100 100 24 16)).log.length = 2 := by
  constructor <;>
    norm_num [handleCollision, gameHooks, mkEntity, isPlayerPickupPair,
      enemyOnCollision, bulletOnCollision, enemyTakeDamage, enemyOnDeath,
      destroyE]

/-- The ordered key of a non-exempt dispatch is always recorded (or was
already present) afterwards. -/
theorem handleCollision_key_mem (hooks : Role → Option HookFn)
    (pairs : List (Nat × Nat)) (o1 o2 : Entity)
    (hwp : isPlayerPickupPair o1 o2 = false) :
    (o1.id, o2.id) ∈ (handleCollision hooks pairs o1 o2).pairs := by
  by_cases hm : (o1.id, o2.id) ∈ pairs <;>
    cases h1 : hooks o1.role <;>
      simp [handleCollision, hwp, hm, h1]

/-- The collision predicate asserted by claim C1 / spec §8 "Pickup
forgiveness", stated from the spec's words for comparison with the code's
`pickupCollisionTriggered`: distance ≤ r_player + r_pickup + margin, each
radius half the entity's max(width, height), the pickup's radius enlarged
by the fixed margin 10. -/
def claimPickupPredicate (player pickup : Entity) : Bool :=
  sqrtLe (distSq player pickup)
    (max player.width player.height / 2 +
      (max pickup.width pickup.height / 2 + 10))

/-- C1 counterexample: spec scenario 3's first half fails on the code.  A
20×20 player at (200,500) and a 16×16 pickup at (230,500) are at distance
exactly 30: the claim's predicate (30 ≤ 10+18 = 28) says no collision, but
the code's pickup check fires, because its flat `distance <= 30` branch
precedes the circle test. -/
theorem c1_distance_thirty_counterexample :
    pickupCollisionTriggered (mkEntity 1 Role.player 200 500 20 20)
      (mkEntity 2 Role.weaponPickup 230 500 16 16) = true ∧
    claimPickupPredicate (mkEntity 1 Role.player 200 500 20 20)
      (mkEntity 2 Role.weaponPickup 230 500 16 16) = false := by
  constructor
  · norm_num [pickupCollisionTriggered, mkEntity, sqrtLe, distSq]
  · norm_num [claimPickupPredicate, mkEntity, sqrtLe, distSq]

/-- C1 amended: for an active player and an active pickup the per-frame
check fires exactly when `distance ≤ 30` or `distance < r_player +
(r_pickup + 10)` (strict circle test, radii as in the claim), never
consulting the box test; whenever the summed radii are at most 30 — as
with the default 20×20 player and 16×16 pickup — this collapses to
`distance ≤ 30` alone.  At distance 15 the collision fires, the pickup is
destroyed, and the player's weapon is upgraded exactly once: the player's
hook upgrades and destroys the pickup, and the pickup's own hook then
skips its second upgrade because the pickup is no longer active. -/
theorem c1_pickup_check_amended (p k : Entity)
    (hp : p.role = Role.player) (hk : k.role = Role.weaponPickup)
    (hap : p.active = true) (hak : k.active = true) :
    (pickupCollisionTriggered p k =
      (sqrtLe (distSq p k) 30 ||
        sqrtLt (distSq p k) (effRadius p + effRadius k))) ∧
    (effRadius p + effRadius k ≤ 30 →
      pickupCollisionTriggered p k = sqrtLe (distSq p k) 30) ∧
    ((handleCollision gameHooks []
        (mkEntity 1 Role.player 200 500 20 20)
        (mkEntity 2 Role.weaponPickup 215 500 16 16)).o1.weaponUpgrades
        = 1 ∧
      (handleCollision gameHooks []
        (mkEntity 1 Role.player 200 500 20 20)
        (mkEntity 2 Role.weaponPickup 215 500 16 16)).o2.shouldDestroy
        = true ∧
      (handleCollision gameHooks []
        (mkEntity 1 Role.player 200 500 20 20)
        (mkEntity 2 Role.weaponPickup 215 500 16 16)).o2.active
        = false ∧
      (handleCollision gameHooks []
        (mkEntity 1 Role.player 200 500 20 20)
        (mkEntity 2 Role.weaponPickup 215 500 16 16)).log.length = 2) := by
  have hmain : pickupCollisionTriggered p k =
      (sqrtLe (distSq p k) 30 ||
        sqrtLt (distSq p k) (effRadius p + effRadius k)) := by
    unfold pickupCollisionTriggered checkCollision checkCircleCollision
    simp [hap, hak, isPlayerPickupPair, hp, hk]
  refine ⟨hmain, ?_, ?_⟩
  · intro hr
    rw [hmain]
    cases hc : sqrtLt (distSq p k) (effRadius p + effRadius k) with
    | false => simp
    | true =>
      have h30 : sqrtLe (distSq p k) 30 = true := by
        unfold sqrtLt at hc
        unfold sqrtLe
        simp only [Bool.and_eq_true, decide_eq_true_eq] at hc ⊢
        refine ⟨by norm_num, ?_⟩
        nlinarith [hc.1, hc.2, hr]
      rw [h30]
      simp
  · refine ⟨?_, ?_, ?_, ?_⟩ <;>
      norm_num [handleCollision, gameHooks, mkEntity, isPlayerPickupPair,
        playerOnCollision, pickupOnCollision, playerUpgradeWeapon,
        destroyE]

/-- C1 amended-claim witness at spec scenario 3's entities (the player and
the pickup at distance 15). -/
theorem c1_pickup_check_amended_witness :
    (pickupCollisionTriggered (mkEntity 1 Role.player 200 500 20 20)
        (mkEntity 2 Role.weaponPickup 215 500 16 16) =
      (sqrtLe (distSq (mkEntity 1 Role.player 200 500 20 20)
          (mkEntity 2 Role.weaponPickup 215 500 16 16)) 30 ||
        sqrtLt (distSq (mkEntity 1 Role.player 200 500 20 20)
            (mkEntity 2 Role.weaponPickup 215 500 16 16))
          (effRadius (mkEntity 1 Role.player 200 500 20 20) +
            effRadius (mkEntity 2 Role.weaponPickup 215 500 16 16)))) ∧
    (effRadius (mkEntity 1 Role.player 200 500 20 20) +
        effRadius (mkEntity 2 Role.weaponPickup 215 500 16 16) ≤ 30 →
      pickupCollisionTriggered (mkEntity 1 Role.player 200 500 20 20)
          (mkEntity 2 Role.weaponPickup 215 500 16 16) =
        sqrtLe (distSq (mkEntity 1 Role.player 200 500 20 20)
          (mkEntity 2 Role.weaponPickup 215 500 16 16)) 30) ∧
    ((handleCollision gameHooks []
        (mkEntity 1 Role.player 200 500 20 20)
        (mkEntity 2 Role.weaponPickup 215 500 16 16)).o1.weaponUpgrades
        = 1 ∧
      (handleCollision gameHooks []
        (mkEntity 1 Role.player 200 500 20 20)
        (mkEntity 2 Role.weaponPickup 215 500 16 16)).o2.shouldDestroy
        = true ∧
      (handleCollision gameHooks []
        (mkEntity 1 Role.player 200 500 20 20)
        (mkEntity 2 Role.weaponPickup 215 500 16 16)).o2.active
        = false ∧
      (handleCollision gameHooks []
        (mkEntity 1 Role.player 200 500 20 20)
        (mkEntity 2 Role.weaponPickup 215 500 16 16)).log.length = 2) :=
  c1_pickup_check_amended
    (mkEntity 1 Role.player 200 500 20 20)
    (mkEntity 2 Role.weaponPickup 215 500 16 16)
    rfl rfl rfl rfl

/-- Membership in the consecutive-integer list. -/
theorem rangeIntsAux_mem (n : Nat) :
    ∀ (lo x : ℤ), x ∈ rangeIntsAux lo n ↔ lo ≤ x ∧ x < lo + n := by
  induction n with
  | zero => intro lo x; simp [rangeIntsAux]
  | succ m ih =>
    intro lo x
    simp only [rangeIntsAux, List.mem_cons, ih (lo + 1) x]
    constructor
    · rintro (rfl | ⟨h1, h2⟩) <;> omega
    · rintro ⟨h1, h2⟩
      by_cases hx : x = lo
      · exact Or.inl hx
      · exact Or.inr ⟨by omega, by omega⟩

/-- Membership in a loop index range. -/
theorem rangeInts_mem (lo hi x : ℤ) :
    x ∈ rangeInts lo hi ↔ lo ≤ x ∧ x ≤ hi := by
  unfold rangeInts
  rw [rangeIntsAux_mem]
  omega

/-- Membership in a cell after the rebuild fold: exactly the active
objects whose clamped cell range covers the cell. -/
theorem buildGrid_mem (g : GridParams) (objs : List Entity) (rc : ℤ × ℤ)
    (i : Nat) :
    i ∈ buildGrid g objs rc ↔
      ∃ o ∈ objs, o.active = true ∧
        inCellRange g (getBounds o) rc.1 rc.2 = true ∧ o.id = i := by
  suffices h : ∀ (cells : ℤ × ℤ → List Nat),
      (i ∈ (objs.foldl
          (fun cells o => if o.active then gridInsert g cells o else cells)
          cells) rc ↔
        i ∈ cells rc ∨ ∃ o ∈ objs, o.active = true ∧
          inCellRange g (getBounds o) rc.1 rc.2 = true ∧ o.id = i) by
    have := h (fun _ => [])
    simpa [buildGrid] using this
  induction objs with
  | nil => intro cells; simp
  | cons o rest ih =>
    intro cells
    simp only [List.foldl_cons]
    rw [ih]
    constructor
    · rintro (hc | ⟨o1, ho1, h1, h2, h3⟩)
      · by_cases ha : o.active = true
        · simp only [ha, if_true, gridInsert] at hc
          by_cases hr : inCellRange g (getBounds o) rc.1 rc.2 = true
          · rw [if_pos hr] at hc
            rcases List.mem_append.mp hc with hc | hc
            · exact Or.inl hc
            · simp only [List.mem_singleton] at hc
              exact Or.inr ⟨o, List.mem_cons_self o rest, ha, hr, hc.symm⟩
          · rw [if_neg hr] at hc
            exact Or.inl hc
        · simp only [Bool.not_eq_true] at ha
          simp only [ha, Bool.false_eq_true, if_false] at hc
          exact Or.inl hc
      · exact Or.inr ⟨o1, List.mem_cons_of_mem o ho1, h1, h2, h3⟩
    · rintro (hc | ⟨o1, ho1, h1, h2, h3⟩)
      · left
        by_cases ha : o.active = true
        · simp only [ha, if_true, gridInsert]
          by_cases hr : inCellRange g (getBounds o) rc.1 rc.2 = true
          · rw [if_pos hr]
            exact List.mem_append.mpr (Or.inl hc)
          · rw [if_neg hr]; exact hc
        · simp only [Bool.not_eq_true] at ha
          simp only [ha, Bool.false_eq_true, if_false]
          exact hc
      · rcases List.mem_cons.mp ho1 with rfl | ho1
        · left
          simp only [h1, if_true, gridInsert, h2, if_pos]
          exact List.mem_append.mpr (Or.inr (by simp [h3]))
        · exact Or.inr ⟨o1, ho1, h1, h2, h3⟩

/-- Membership in a grid query: some cell of the query range contains the
id, and the id passes the target filter and the self test. -/
theorem getNearbyIds_mem (g : GridParams) (cells : ℤ × ℤ → List Nat)
    (b : Bounds) (selfId : Nat) (targets : List Nat) (i : Nat) :
    i ∈ getNearbyIds g cells b selfId targets ↔
      ∃ row col : ℤ,
        (startRow g b ≤ row ∧ row ≤ endRow g b ∧
         startCol g b ≤ col ∧ col ≤ endCol g b) ∧
        i ∈ cells (row, col) ∧ i ∈ targets ∧ i ≠ selfId := by
  unfold getNearbyIds
  rw [List.mem_dedup]
  simp only [List.mem_flatMap, List.mem_filter, rangeInts_mem,
    Bool.and_eq_true, List.contains_eq_any_beq, List.any_eq_true,
    beq_iff_eq, ne_eq, decide_eq_true_eq]
  constructor
  · rintro ⟨row, ⟨hr1, hr2⟩, col, ⟨hc1, hc2⟩, hmem, ⟨⟨j, hj, rfl⟩, hne⟩⟩
    exact ⟨row, col, ⟨hr1, hr2, hc1, hc2⟩, hmem, hj, hne⟩
  · rintro ⟨row, col, ⟨hr1, hr2, hc1, hc2⟩, hmem, ht, hne⟩
    exact ⟨row, ⟨hr1, hr2⟩, col, ⟨hc1, hc2⟩, hmem, ⟨⟨i, ht, rfl⟩, hne⟩⟩

/-- Two clamped one-axis cell ranges that are each nonempty and whose
underlying intervals touch (`x1l ≤ x2r` and `x2l ≤ x1r`) share an index. -/
theorem clamped_ranges_share_index (cs : ℚ) (hcs : 0 < cs) (M : ℤ)
    (x1l x1r x2l x2r : ℚ)
    (hne1 : max 0 ⌊x1l / cs⌋ ≤ min (M - 1) ⌊x1r / cs⌋)
    (hne2 : max 0 ⌊x2l / cs⌋ ≤ min (M - 1) ⌊x2r / cs⌋)
    (h12 : x1l ≤ x2r) (h21 : x2l ≤ x1r) :
    ∃ c : ℤ, max 0 ⌊x1l / cs⌋ ≤ c ∧ c ≤ min (M - 1) ⌊x1r / cs⌋ ∧
      max 0 ⌊x2l / cs⌋ ≤ c ∧ c ≤ min (M - 1) ⌊x2r / cs⌋ := by
  have f12 : ⌊x1l / cs⌋ ≤ ⌊x2r / cs⌋ :=
    Int.floor_le_floor (by gcongr)
  have f21 : ⌊x2l / cs⌋ ≤ ⌊x1r / cs⌋ :=
    Int.floor_le_floor (by gcongr)
  refine ⟨max (max 0 ⌊x1l / cs⌋) (max 0 ⌊x2l / cs⌋), ?_, ?_, ?_, ?_⟩ <;>
    omega

/-- C4: grid completeness.  For any two distinct active entities that are
both inserted into the rebuilt grid (their clamped cell ranges are
nonempty on both axes) and whose axis-aligned boxes intersect per the AABB
test, a query anchored at either one returns the other whenever it is in
the caller-supplied target filter — including when either entity straddles
a cell boundary, since insertion covers every overlapped cell. -/
theorem c4_grid_completeness (g : GridParams) (objs : List Entity)
    (A B : Entity) (tA tB : List Nat)
    (hcs : 0 < g.cellSize)
    (hA : A ∈ objs) (hB : B ∈ objs)
    (hAact : A.active = true) (hBact : B.active = true)
    (hid : A.id ≠ B.id)
    (hAcol : startCol g (getBounds A) ≤ endCol g (getBounds A))
    (hArow : startRow g (getBounds A) ≤ endRow g (getBounds A))
    (hBcol : startCol g (getBounds B) ≤ endCol g (getBounds B))
    (hBrow : startRow g (getBounds B) ≤ endRow g (getBounds B))
    (hbox : checkAABBCollision A B = true)
    (hBt : B.id ∈ tA) (hAt : A.id ∈ tB) :
    B.id ∈ getNearbyIds g (buildGrid g objs) (getBounds A) A.id tA ∧
    A.id ∈ getNearbyIds g (buildGrid g objs) (getBounds B) B.id tB := by
  have hfacts : (getBounds B).left ≤ (getBounds A).right ∧
      (getBounds A).left ≤ (getBounds B).right ∧
      (getBounds B).top ≤ (getBounds A).bottom ∧
      (getBounds A).top ≤ (getBounds B).bottom := by
    unfold checkAABBCollision at hbox
    simp only [Bool.not_eq_eq_eq_not, Bool.not_true, Bool.or_eq_false_iff,
      decide_eq_false_iff_not, not_lt] at hbox
    exact ⟨hbox.1.1.1, hbox.1.1.2, hbox.1.2, hbox.2⟩
  obtain ⟨c1, c2, c3, c4⟩ := hfacts
  have hAc := hAcol; have hBc := hBcol
  have hAr := hArow; have hBr := hBrow
  unfold startCol endCol at hAc hBc
  unfold startRow endRow at hAr hBr
  obtain ⟨col, hcA1, hcA2, hcB1, hcB2⟩ :=
    clamped_ranges_share_index g.cellSize hcs (gridCols g)
      (getBounds A).left (getBounds A).right
      (getBounds B).left (getBounds B).right hAc hBc c2 c1
  obtain ⟨row, hrA1, hrA2, hrB1, hrB2⟩ :=
    clamped_ranges_share_index g.cellSize hcs (gridRows g)
      (getBounds A).top (getBounds A).bottom
      (getBounds B).top (getBounds B).bottom hAr hBr c4 c3
  have hrangeA : startRow g (getBounds A) ≤ row ∧ row ≤ endRow g (getBounds A) ∧
      startCol g (getBounds A) ≤ col ∧ col ≤ endCol g (getBounds A) := by
    unfold startCol endCol startRow endRow
    exact ⟨hrA1, hrA2, hcA1, hcA2⟩
  have hrangeB : startRow g (getBounds B) ≤ row ∧ row ≤ endRow g (getBounds B) ∧
      startCol g (getBounds B) ≤ col ∧ col ≤ endCol g (getBounds B) := by
    unfold startCol endCol startRow endRow
    exact ⟨hrB1, hrB2, hcB1, hcB2⟩
  have hcellA : A.id ∈ buildGrid g objs (row, col) := by
    refine (buildGrid_mem g objs (row, col) A.id).mpr ⟨A, hA, hAact, ?_, rfl⟩
    simp only [inCellRange, Bool.and_eq_true, decide_eq_true_eq]
    exact ⟨⟨⟨hrangeA.1, hrangeA.2.1⟩, hrangeA.2.2.1⟩, hrangeA.2.2.2⟩
  have hcellB : B.id ∈ buildGrid g objs (row, col) := by
    refine (buildGrid_mem g objs (row, col) B.id).mpr ⟨B, hB, hBact, ?_, rfl⟩
    simp only [inCellRange, Bool.and_eq_true, decide_eq_true_eq]
    exact ⟨⟨⟨hrangeB.1, hrangeB.2.1⟩, hrangeB.2.2.1⟩, hrangeB.2.2.2⟩
  constructor
  · exact (getNearbyIds_mem g (buildGrid g objs) (getBounds A) A.id tA
      B.id).mpr ⟨row, col, hrangeA, hcellB, hBt, Ne.symm hid⟩
  · exact (getNearbyIds_mem g (buildGrid g objs) (getBounds B) B.id tB
      A.id).mpr ⟨row, col, hrangeB, hcellA, hAt, hid⟩

/-- The grid the engine builds for an 800×600 world with cell size 64. -/
def gameGrid : GridParams := { width := 800, height := 600, cellSize := 64 }

/-- C4 witness: an 8×8 bullet at (62,40) straddling the column boundary
x = 64 and a 16×16 enemy at (66,40); each query returns the other. -/
theorem c4_grid_completeness_witness :
    (mkEntity 2 Role.enemy 66 40 16 16).id ∈
      getNearbyIds gameGrid
        (buildGrid gameGrid [mkEntity 1 Role.playerBullet 62 40 8 8,
          mkEntity 2 Role.enemy 66 40 16 16])
        (getBounds (mkEntity 1 Role.playerBullet 62 40 8 8))
        (mkEntity 1 Role.playerBullet 62 40 8 8).id
        [(mkEntity 2 Role.enemy 66 40 16 16).id] ∧
    (mkEntity 1 Role.playerBullet 62 40 8 8).id ∈
      getNearbyIds gameGrid
        (buildGrid gameGrid [mkEntity 1 Role.playerBullet 62 40 8 8,
          mkEntity 2 Role.enemy 66 40 16 16])
        (getBounds (mkEntity 2 Role.enemy 66 40 16 16))
        (mkEntity 2 Role.enemy 66 40 16 16).id
        [(mkEntity 1 Role.playerBullet 62 40 8 8).id] :=
  c4_grid_completeness gameGrid
    [mkEntity 1 Role.playerBullet 62 40 8 8,
      mkEntity 2 Role.enemy 66 40 16 16]
    (mkEntity 1 Role.playerBullet 62 40 8 8)
    (mkEntity 2 Role.enemy 66 40 16 16)
    [(mkEntity 2 Role.enemy 66 40 16 16).id]
    [(mkEntity 1 Role.playerBullet 62 40 8 8).id]
    (by norm_num [gameGrid])
    (by simp) (by simp) rfl rfl (by norm_num [mkEntity])
    (by norm_num [startCol, endCol, getBounds, gridCols, gameGrid, mkEntity])
    (by norm_num [startRow, endRow, getBounds, gridRows, gameGrid, mkEntity])
    (by norm_num [startCol, endCol, getBounds, gridCols, gameGrid, mkEntity])
    (by norm_num [startRow, endRow, getBounds, gridRows, gameGrid, mkEntity])
    (by norm_num [checkAABBCollision, getBounds, mkEntity])
    (by simp) (by simp)

/-! ## Destroy-pruning timing (claim C7) -/

/-- Applying `destroy()` does not change the object's id. -/
theorem destroyE_id (o : Entity) : (destroyE o).id = o.id := rfl

/-- Applying `upgradeWeapon` does not change the object's id. -/
theorem playerUpgradeWeapon_id (o : Entity) :
    (playerUpgradeWeapon o).id = o.id := by
  unfold playerUpgradeWeapon; split <;> rfl

/-- Applying `Player.takeDamage` does not change the object's id. -/
theorem playerTakeDamage_id (o : Entity) (d : ℤ) :
    (playerTakeDamage o d).id = o.id := by
  unfold playerTakeDamage playerOnDeath
  split
  · rfl
  · dsimp only
    split <;> rfl

/-- Applying `Enemy.takeDamage` does not change the object's id. -/
theorem enemyTakeDamage_id (o : Entity) (d : ℤ) :
    (enemyTakeDamage o d).id = o.id := by
  unfold enemyTakeDamage enemyOnDeath destroyE
  split
  · rfl
  · dsimp only
    split <;> rfl

/-- Every hook of this game preserves both participants' ids. -/
theorem gameHooks_preserve_id (r : Role) (f : HookFn)
    (h : gameHooks r = some f) (s o : Entity) :
    (f s o).1.id = s.id ∧ (f s o).2.id = o.id := by
  cases r <;> injection h with h <;> rw [← h] <;>
    first
    | (unfold playerOnCollision
       split_ifs <;>
         simp [playerUpgradeWeapon_id, playerTakeDamage_id, destroyE_id])
    | (unfold enemyOnCollision
       split_ifs <;> simp [enemyTakeDamage_id, destroyE_id])
    | (unfold bulletOnCollision
       split_ifs <;>
         simp [enemyTakeDamage_id, playerTakeDamage_id, destroyE_id])
    | (unfold pickupOnCollision
       split_ifs <;> simp [playerUpgradeWeapon_id, destroyE_id])

/-- The dispatcher preserves both participants' ids whenever the hook map
does. -/
theorem handleCollision_ids (hooks : Role → Option HookFn)
    (hpres : ∀ r f, hooks r = some f → ∀ s o : Entity,
      (f s o).1.id = s.id ∧ (f s o).2.id = o.id)
    (pairs : List (Nat × Nat)) (o1 o2 : Entity) :
    (handleCollision hooks pairs o1 o2).o1.id = o1.id ∧
    (handleCollision hooks pairs o1 o2).o2.id = o2.id := by
  by_cases hg : (isPlayerPickupPair o1 o2 = false ∧ (o1.id, o2.id) ∈ pairs)
  · constructor <;> simp [handleCollision, hg]
  · cases h1 : hooks o1.role with
    | none =>
      cases h2 : hooks o2.role with
      | none => constructor <;> simp [handleCollision, hg, h1, h2]
      | some g =>
        have hgg := hpres o2.role g h2 o2 o1
        constructor <;> simp [handleCollision, hg, h1, h2, hgg.1, hgg.2]
    | some f =>
      have hf := hpres o1.role f h1 o1 o2
      cases h2 : hooks (f o1 o2).2.role with
      | none => constructor <;> simp [handleCollision, hg, h1, h2, hf.1, hf.2]
      | some g =>
        have hgg := hpres (f o1 o2).2.role g h2 (f o1 o2).2 (f o1 o2).1
        constructor <;>
          simp [handleCollision, hg, h1, h2, hf.1, hf.2, hgg.1, hgg.2]

/-- A successful lookup returns an entity carrying the requested id. -/
theorem getById_id (st : List Entity) (i : Nat) (o : Entity)
    (h : getById st i = some o) : o.id = i := by
  unfold getById at h
  have := List.find?_some h
  simpa using this

/-- Writing back an entity that keeps its id leaves the registry's id
sequence unchanged. -/
theorem setById_map_id (st : List Entity) (i : Nat) (e : Entity)
    (h : e.id = i) :
    (setById st i e).map (fun o => o.id) = st.map (fun o => o.id) := by
  induction st with
  | nil => rfl
  | cons o rest ih =>
    unfold setById
    by_cases ho : o.id = i
    · simp [ho, h]
    · simp [ho, ih]

/-- One store-level dispatch with the game's hooks leaves the registry's
id sequence unchanged: it only writes back the two participants under
their own ids. -/
theorem handleCollisionStore_map_id (s : PassState) (i1 i2 : Nat) :
    (handleCollisionStore gameHooks s i1 i2).store.map (fun o => o.id) =
      s.store.map (fun o => o.id) := by
  unfold handleCollisionStore
  cases h1 : getById s.store i1 with
  | none => rfl
  | some o1 =>
    cases h2 : getById s.store i2 with
    | none => rfl
    | some o2 =>
      have hids := handleCollision_ids gameHooks gameHooks_preserve_id
        s.pairs o1 o2
      have e1 : (handleCollision gameHooks s.pairs o1 o2).o1.id = i1 := by
        rw [hids.1]; exact getById_id s.store i1 o1 h1
      have e2 : (handleCollision gameHooks s.pairs o1 o2).o2.id = i2 := by
        rw [hids.2]; exact getById_id s.store i2 o2 h2
      simp only []
      rw [setById_map_id _ _ _ e2, setById_map_id _ _ _ e1]

/-- Folding a store-preserving step preserves the registry's id
sequence. -/
theorem foldl_store_map_id {α : Type} (f : PassState → α → PassState)
    (h : ∀ s a, (f s a).store.map (fun o => o.id) =
      s.store.map (fun o => o.id)) :
    ∀ (l : List α) (s : PassState),
      ((l.foldl f s).store.map (fun o => o.id)) =
        s.store.map (fun o => o.id) := by
  intro l
  induction l with
  | nil => intro s; rfl
  | cons a rest ih => intro s; rw [List.foldl_cons, ih, h]

/-- The whole collision pass, run with the game's hooks, preserves the
registry's id sequence: no entity is removed from (or added to) the
modelled registry during the collision phase; destruction only marks. -/
theorem collisionPass_map_id (g : GridParams) (objs : List Entity) :
    (collisionPass g gameHooks objs).1.map (fun o => o.id) =
      objs.map (fun o => o.id) := by
  unfold collisionPass
  have hcat1 : ∀ (cells : ℤ × ℤ → List Nat) (s : PassState),
      (checkPlayerBulletEnemyCollisions g cells gameHooks s).store.map
        (fun o => o.id) = s.store.map (fun o => o.id) := by
    intro cells s
    unfold checkPlayerBulletEnemyCollisions
    apply foldl_store_map_id
    intro s1 bid
    cases hb : getById s1.store bid with
    | none => rfl
    | some bullet =>
      simp only []
      apply foldl_store_map_id
      intro s2 eid
      cases hbb : getById s2.store bid with
      | none => rfl
      | some b =>
        cases he : getById s2.store eid with
        | none => rfl
        | some e =>
          simp only []
          split
          · exact handleCollisionStore_map_id s2 bid eid
          · rfl
  have hcat2 : ∀ s : PassState,
      (checkEnemyBulletPlayerCollisions gameHooks s).store.map
        (fun o => o.id) = s.store.map (fun o => o.id) := by
    intro s
    unfold checkEnemyBulletPlayerCollisions
    cases hp : findActiveId s.store Role.player with
    | none => rfl
    | some pid =>
      simp only []
      apply foldl_store_map_id
      intro s1 bid
      cases hb : getById s1.store bid with
      | none => rfl
      | some b =>
        cases hpp : getById s1.store pid with
        | none => rfl
        | some p =>
          simp only []
          split
          · exact handleCollisionStore_map_id s1 bid pid
          · rfl
  have hcat3 : ∀ s : PassState,
      (checkPlayerEnemyCollisions gameHooks s).store.map
        (fun o => o.id) = s.store.map (fun o => o.id) := by
    intro s
    unfold checkPlayerEnemyCollisions
    cases hp : findActiveId s.store Role.player with
    | none => rfl
    | some pid =>
      simp only []
      apply foldl_store_map_id
      intro s1 eid
      cases hpp : getById s1.store pid with
      | none => rfl
      | some p =>
        cases he : getById s1.store eid with
        | none => rfl
        | some e =>
          simp only []
          split
          · exact handleCollisionStore_map_id s1 pid eid
          · rfl
  have hcat4 : ∀ s : PassState,
      (checkPlayerWeaponPickupCollisions gameHooks s).store.map
        (fun o => o.id) = s.store.map (fun o => o.id) := by
    intro s
    unfold checkPlayerWeaponPickupCollisions
    cases hp : findActiveId s.store Role.player with
    | none => rfl
    | some pid =>
      simp only []
      apply foldl_store_map_id
      intro s1 kid
      cases hpp : getById s1.store pid with
      | none => rfl
      | some p =>
        cases hk : getById s1.store kid with
        | none => rfl
        | some k =>
          simp only []
          split
          · exact handleCollisionStore_map_id s1 pid kid
          · split
            · exact handleCollisionStore_map_id s1 pid kid
            · rfl
  rw [hcat4, hcat3, hcat2, hcat1]

/-- The update-and-splice loop never leaves a `shouldDestroy` entity in
the registry: everything marked — before the loop or by its own update —
is removed in this very loop. -/
theorem updateLoop_no_marked (f : Entity → Entity) :
    ∀ (objs : List Entity) (e : Entity),
      e ∈ updateLoop f objs → e.shouldDestroy = false := by
  intro objs
  induction objs with
  | nil => intro e h; simp [updateLoop] at h
  | cons o rest ih =>
    intro e h
    unfold updateLoop at h
    rw [List.foldr_cons] at h
    dsimp only at h
    by_cases hd : (f o).shouldDestroy = true
    · rw [if_pos hd] at h
      exact ih e h
    · rw [if_neg hd] at h
      rcases List.mem_cons.mp h with rfl | h
      · simpa using hd
      · exact ih e h

/-- The frame-N scenario for the pruning-timing claim: a player and a
pickup close enough to collide during frame N's collision phase. -/
def pickupScene : List Entity :=
  [mkEntity 1 Role.player 200 500 20 20,
   mkEntity 2 Role.weaponPickup 215 500 16 16]


/-- C7 counterexample: an entity marked for destruction during the
collision phase is NOT absent from the registry at the start of the next
frame.  Running one full frame (`engineUpdate`: update-and-splice loop,
then collision pass) over `pickupScene` marks the pickup via the player's
hook, yet the frame's final registry — the registry as the next frame
begins — still contains the pickup, in its destroyed state. -/
theorem c7_present_at_next_frame_start_counterexample :
    getById (engineUpdate (objUpdate 800 600 (1000 / 60)) true true
        gameGrid gameHooks pickupScene).1 2 =
      some (destroyE (mkEntity 2 Role.weaponPickup 215 500 16 16)) ∧
    (destroyE (mkEntity 2 Role.weaponPickup 215 500 16 16)).shouldDestroy
      = true ∧
    (destroyE (mkEntity 2 Role.weaponPickup 215 500 16 16)).active
      = false := by
  refine ⟨?_, rfl, rfl⟩
  norm_num +decide [engineUpdate, updateLoop, objUpdate, collisionPass,
    checkPlayerBulletEnemyCollisions, checkEnemyBulletPlayerCollisions,
    checkPlayerEnemyCollisions, checkPlayerWeaponPickupCollisions,
    activeIds, findActiveId, getById, setById, handleCollisionStore,
    handleCollision, gameHooks, playerOnCollision, pickupOnCollision,
    playerUpgradeWeapon, destroyE, isPlayerPickupPair, sqrtLe, distSq,
    mkEntity, gameGrid, pickupScene, List.find?, List.filter]

/-- C7 amended: (i) the collision pass never removes an entity from the
registry — the id sequence is untouched, so an entity marked mid-pass
stays present, with its then-current state, for every later hook of the
same frame and is still present at the start of the next frame (the
concrete pickup scenario below); (ii) pruning happens inside the next
frame's update-and-splice loop (the backward splice in
`GameEngine.update`, not a dedicated end-of-update point): after that
loop, no `shouldDestroy` entity remains — in particular the loop's output
precedes the frame's collision pass, so a marked entity is gone before
any further collision processing; (iii) in the scenario, the next frame's
loop leaves only the player. -/
theorem c7_pruning_timing_amended :
    (∀ (g : GridParams) (objs : List Entity) (i : Nat),
        i ∈ objs.map (fun o => o.id) →
        i ∈ ((collisionPass g gameHooks objs).1.map (fun o => o.id))) ∧
    (∀ (f : Entity → Entity) (objs : List Entity) (e : Entity),
        e ∈ updateLoop f objs → e.shouldDestroy = false) ∧
    (∀ (f : Entity → Entity) (objs : List Entity) (e : Entity),
        e.shouldDestroy = true → e ∉ updateLoop f objs) ∧
    (2 : Nat) ∈ ((engineUpdate (objUpdate 800 600 (1000 / 60)) true true
        gameGrid gameHooks pickupScene).1.map (fun o => o.id)) ∧
    ((updateLoop (objUpdate 800 600 (1000 / 60))
        (engineUpdate (objUpdate 800 600 (1000 / 60)) true true gameGrid
          gameHooks pickupScene).1).map (fun o => o.id)) = [1] := by
  refine ⟨?_, ?_, ?_, ?_, ?_⟩
  · intro g objs i h
    rw [collisionPass_map_id]
    exact h
  · exact fun f objs e h => updateLoop_no_marked f objs e h
  · intro f objs e hd hmem
    have hf := updateLoop_no_marked f objs e hmem
    rw [hd] at hf
    cases hf
  · norm_num +decide [engineUpdate, updateLoop, objUpdate, collisionPass,
      checkPlayerBulletEnemyCollisions, checkEnemyBulletPlayerCollisions,
      checkPlayerEnemyCollisions, checkPlayerWeaponPickupCollisions,
      activeIds, findActiveId, getById, setById, handleCollisionStore,
      handleCollision, gameHooks, playerOnCollision, pickupOnCollision,
      playerUpgradeWeapon, destroyE, isPlayerPickupPair, sqrtLe, distSq,
      mkEntity, gameGrid, pickupScene, List.find?, List.filter]
  · norm_num +decide [engineUpdate, updateLoop, objUpdate, collisionPass,
      checkPlayerBulletEnemyCollisions, checkEnemyBulletPlayerCollisions,
      checkPlayerEnemyCollisions, checkPlayerWeaponPickupCollisions,
      activeIds, findActiveId, getById, setById, handleCollisionStore,
      handleCollision, gameHooks, playerOnCollision, pickupOnCollision,
      playerUpgradeWeapon, destroyE, isPlayerPickupPair, sqrtLe, distSq,
      mkEntity, gameGrid, pickupScene, List.find?, List.filter]

/-- C7 amended-claim witness at concrete inputs: the pickup's id survives
the collision pass of `pickupScene`, and a destroyed pickup placed in a
registry does not survive the update-and-splice loop. -/
theorem c7_pruning_timing_amended_witness :
    (2 : Nat) ∈
      ((collisionPass gameGrid gameHooks pickupScene).1.map
        (fun o => o.id)) ∧
    (destroyE (mkEntity 2 Role.weaponPickup 215 500 16 16)) ∉
      updateLoop (objUpdate 800 600 (1000 / 60))
        [destroyE (mkEntity 2 Role.weaponPickup 215 500 16 16)] :=
  ⟨c7_pruning_timing_amended.1 gameGrid pickupScene 2
      (by norm_num +decide [pickupScene, mkEntity]),
    c7_pruning_timing_amended.2.2.1 (objUpdate 800 600 (1000 / 60))
      [destroyE (mkEntity 2 Role.weaponPickup 215 500 16 16)]
      (destroyE (mkEntity 2 Role.weaponPickup 215 500 16 16)) rfl⟩

/-! ## At-most-once dispatch in the actual pass (claim C3)

The remaining C3 assertion is that the per-frame pass itself never
resolves an unordered pair twice.  The proof tracks three facts through
the four category checks: the registry's `(id, role)` sequence never
changes; every recorded dedup key is oriented the way its category
dispatches (bullet before enemy, bullet before player, player before
enemy, player before pickup), and these orientations are antisymmetric,
so a non-pickup pair can never be re-dispatched in either order once its
key is recorded; and the pickup category walks a duplicate-free id list
against the single player id, so its dedup-exempt dispatches are pairwise
distinct as well.  Together these give a duplicate-free hook-invocation
log. -/

/-- The identity-and-class tag of a registry entry: the part of an object
a JS reference can never lose. -/
def tagOf (o : Entity) : Nat × Role := (o.id, o.role)

/-- The role stored under an id (role of the first entry with that id). -/
def roleOf (st : List Entity) (i : Nat) : Option Role :=
  (getById st i).map (fun o => o.role)

/-- The role orientations in which the four category checks pass pairs to
the dispatcher: `(obj1.role, obj2.role)` of every `handleCollision` call
site in `performCollisionDetection`. -/
def orientedPair (r1 r2 : Role) : Prop :=
  (r1 = Role.playerBullet ∧ r2 = Role.enemy) ∨
  (r1 = Role.enemyBullet ∧ r2 = Role.player) ∨
  (r1 = Role.player ∧ r2 = Role.enemy) ∨
  (r1 = Role.player ∧ r2 = Role.weaponPickup)

/-- A player↔pickup pair of (optional) roles — the dedup-exempt case. -/
def wpOptPair (r1 r2 : Option Role) : Prop :=
  (r1 = some Role.player ∧ r2 = some Role.weaponPickup) ∨
  (r1 = some Role.weaponPickup ∧ r2 = some Role.player)

/-- No category orientation is the reverse of a category orientation. -/
theorem orientedPair_asymm (r1 r2 : Role) (h : orientedPair r1 r2) :
    ¬ orientedPair r2 r1 := by
  rcases h with ⟨rfl, rfl⟩ | ⟨rfl, rfl⟩ | ⟨rfl, rfl⟩ | ⟨rfl, rfl⟩ <;>
    simp [orientedPair]

/-- A category orientation relates two distinct roles. -/
theorem orientedPair_ne (r1 r2 : Role) (h : orientedPair r1 r2) :
    r1 ≠ r2 := by
  rcases h with ⟨rfl, rfl⟩ | ⟨rfl, rfl⟩ | ⟨rfl, rfl⟩ | ⟨rfl, rfl⟩ <;>
    simp

/-- The symmetry of the dedup-exempt role pair. -/
theorem wpOptPair_symm (r1 r2 : Option Role) (h : wpOptPair r1 r2) :
    wpOptPair r2 r1 := by
  rcases h with ⟨h1, h2⟩ | ⟨h1, h2⟩
  · exact Or.inr ⟨h2, h1⟩
  · exact Or.inl ⟨h2, h1⟩

/-- Applying `destroy()` does not change the object's role. -/
theorem destroyE_role (o : Entity) : (destroyE o).role = o.role := rfl

/-- Applying `upgradeWeapon` does not change the object's role. -/
theorem playerUpgradeWeapon_role (o : Entity) :
    (playerUpgradeWeapon o).role = o.role := by
  unfold playerUpgradeWeapon; split <;> rfl

/-- Applying `Player.takeDamage` does not change the object's role. -/
theorem playerTakeDamage_role (o : Entity) (d : ℤ) :
    (playerTakeDamage o d).role = o.role := by
  unfold playerTakeDamage playerOnDeath
  split
  · rfl
  · dsimp only
    split <;> rfl

/-- Applying `Enemy.takeDamage` does not change the object's role. -/
theorem enemyTakeDamage_role (o : Entity) (d : ℤ) :
    (enemyTakeDamage o d).role = o.role := by
  unfold enemyTakeDamage enemyOnDeath destroyE
  split
  · rfl
  · dsimp only
    split <;> rfl

/-- Every hook of this game preserves both participants' roles (a JS
object never changes its class). -/
theorem gameHooks_preserve_role (r : Role) (f : HookFn)
    (h : gameHooks r = some f) (s o : Entity) :
    (f s o).1.role = s.role ∧ (f s o).2.role = o.role := by
  cases r <;> injection h with h <;> rw [← h] <;>
    first
    | (unfold playerOnCollision
       split_ifs <;>
         simp [playerUpgradeWeapon_role, playerTakeDamage_role,
           destroyE_role])
    | (unfold enemyOnCollision
       split_ifs <;> simp [enemyTakeDamage_role, destroyE_role])
    | (unfold bulletOnCollision
       split_ifs <;>
         simp [enemyTakeDamage_role, playerTakeDamage_role, destroyE_role])
    | (unfold pickupOnCollision
       split_ifs <;> simp [playerUpgradeWeapon_role, destroyE_role])

/-- The dispatcher preserves both participants' roles with the game's
hooks. -/
theorem handleCollision_roles (pairs : List (Nat × Nat)) (o1 o2 : Entity) :
    (handleCollision gameHooks pairs o1 o2).o1.role = o1.role ∧
    (handleCollision gameHooks pairs o1 o2).o2.role = o2.role := by
  by_cases hg : (isPlayerPickupPair o1 o2 = false ∧ (o1.id, o2.id) ∈ pairs)
  · constructor <;> simp [handleCollision, hg]
  · cases h1 : gameHooks o1.role with
    | none =>
      cases h2 : gameHooks o2.role with
      | none => constructor <;> simp [handleCollision, hg, h1, h2]
      | some g =>
        have hgg := gameHooks_preserve_role o2.role g h2 o2 o1
        constructor <;> simp [handleCollision, hg, h1, h2, hgg.1, hgg.2]
    | some f =>
      have hf := gameHooks_preserve_role o1.role f h1 o1 o2
      have hdisc : gameHooks (f o1 o2).2.role = gameHooks o2.role := by
        rw [hf.2]
      cases h2 : gameHooks o2.role with
      | none =>
        constructor <;>
          simp [handleCollision, hg, h1, hdisc, h2, hf.1, hf.2]
      | some g =>
        have hgg := gameHooks_preserve_role o2.role g h2
          (f o1 o2).2 (f o1 o2).1
        constructor <;>
          simp [handleCollision, hg, h1, hdisc, h2, hf.1, hf.2, hgg.1,
            hgg.2]

/-- Lookups agree on stores with the same `(id, role)` sequence, up to the
tag. -/
theorem getById_tag_congr :
    ∀ (st st2 : List Entity), st.map tagOf = st2.map tagOf →
      ∀ i : Nat, Option.map tagOf (getById st i) =
        Option.map tagOf (getById st2 i) := by
  intro st
  induction st with
  | nil =>
    intro st2 h i
    cases st2 with
    | nil => rfl
    | cons b t2 => simp at h
  | cons a t ih =>
    intro st2 h i
    cases st2 with
    | nil => simp at h
    | cons b t2 =>
      simp only [List.map_cons, List.cons.injEq] at h
      obtain ⟨htag, htail⟩ := h
      have hid : a.id = b.id := congrArg Prod.fst htag
      by_cases hcase : a.id = i
      · have hcase2 : b.id = i := by rw [← hid]; exact hcase
        unfold getById
        rw [List.find?_cons_of_pos _ (by simp [hcase]),
            List.find?_cons_of_pos _ (by simp [hcase2])]
        simp [htag]
      · have hcase2 : ¬ b.id = i := by rw [← hid]; exact hcase
        unfold getById
        rw [List.find?_cons_of_neg _ (by simp [hcase]),
            List.find?_cons_of_neg _ (by simp [hcase2])]
        exact ih t2 htail i

/-- The role found under an id depends only on the `(id, role)` sequence. -/
theorem roleOf_congr (st st2 : List Entity)
    (h : st.map tagOf = st2.map tagOf) (i : Nat) :
    roleOf st i = roleOf st2 i := by
  have hh := getById_tag_congr st st2 h i
  unfold roleOf
  cases h1 : getById st i with
  | none =>
    cases h2 : getById st2 i with
    | none => rfl
    | some o2 => rw [h1, h2] at hh; simp at hh
  | some o1 =>
    cases h2 : getById st2 i with
    | none => rw [h1, h2] at hh; simp at hh
    | some o2 =>
      rw [h1, h2] at hh
      simp only [Option.map_some'] at hh
      have hh2 : tagOf o1 = tagOf o2 := Option.some.inj hh
      have hr : o1.role = o2.role := by
        have h3 := congrArg Prod.snd hh2
        simpa [tagOf] using h3
      simp [hr]

/-- The id sequence is the first projection of the tag sequence. -/
theorem mapId_of_tag (st st2 : List Entity)
    (h : st.map tagOf = st2.map tagOf) :
    st.map (fun o => o.id) = st2.map (fun o => o.id) := by
  have h2 := congrArg (List.map Prod.fst) h
  simpa [List.map_map, Function.comp, tagOf] using h2

/-- Writing back an entity with the replaced entry's id and role leaves the
tag sequence unchanged. -/
theorem setById_map_tag :
    ∀ (st : List Entity) (i : Nat) (e o : Entity),
      getById st i = some o → e.id = o.id → e.role = o.role →
      (setById st i e).map tagOf = st.map tagOf := by
  intro st
  induction st with
  | nil => intro i e o h _ _; simp [getById] at h
  | cons a t ih =>
    intro i e o h hid hrole
    by_cases hcase : a.id = i
    · have hga : getById (a :: t) i = some a := by
        unfold getById
        rw [List.find?_cons_of_pos _ (by simp [hcase])]
      rw [hga] at h
      injection h with h
      unfold setById
      rw [if_pos hcase]
      simp only [List.map_cons, List.cons.injEq]
      refine ⟨?_, trivial⟩
      unfold tagOf
      rw [hid, hrole, h]
    · have hgt : getById (a :: t) i = getById t i := by
        unfold getById
        rw [List.find?_cons_of_neg _ (by simp [hcase])]
      rw [hgt] at h
      unfold setById
      rw [if_neg hcase]
      simp only [List.map_cons, List.cons.injEq]
      exact ⟨trivial, ih i e o h hid hrole⟩

/-- One store-level dispatch with the game's hooks leaves the registry's
`(id, role)` sequence unchanged. -/
theorem handleCollisionStore_map_tag (s : PassState) (i1 i2 : Nat) :
    (handleCollisionStore gameHooks s i1 i2).store.map tagOf =
      s.store.map tagOf := by
  unfold handleCollisionStore
  cases h1 : getById s.store i1 with
  | none => rfl
  | some o1 =>
    cases h2 : getById s.store i2 with
    | none => rfl
    | some o2 =>
      have hids := handleCollision_ids gameHooks gameHooks_preserve_id
        s.pairs o1 o2
      have hroles := handleCollision_roles s.pairs o1 o2
      simp only []
      have hstep1 : (setById s.store i1
          (handleCollision gameHooks s.pairs o1 o2).o1).map tagOf =
          s.store.map tagOf :=
        setById_map_tag s.store i1 _ o1 h1 (by rw [hids.1, getById_id s.store i1 o1 h1]) hroles.1
      have hg2 : Option.map tagOf (getById (setById s.store i1
          (handleCollision gameHooks s.pairs o1 o2).o1) i2) =
          Option.map tagOf (getById s.store i2) :=
        getById_tag_congr _ _ hstep1 i2
      rw [h2] at hg2
      cases h3 : getById (setById s.store i1
          (handleCollision gameHooks s.pairs o1 o2).o1) i2 with
      | none => rw [h3] at hg2; simp at hg2
      | some o3 =>
        rw [h3] at hg2
        simp only [Option.map_some'] at hg2
        have hg3 : tagOf o3 = tagOf o2 := Option.some.inj hg2
        have hid3 : o3.id = o2.id := by
          have h4 := congrArg Prod.fst hg3
          simpa [tagOf] using h4
        have hrole3 : o3.role = o2.role := by
          have h4 := congrArg Prod.snd hg3
          simpa [tagOf] using h4
        have hstep2 := setById_map_tag _ i2
          (handleCollision gameHooks s.pairs o1 o2).o2 o3 h3
          (by rw [hids.2, getById_id s.store i2 o2 h2,
                ← getById_id s.store i2 o2 h2, ← hid3,
                getById_id _ i2 o3 h3])
          (by rw [hroles.2, hrole3])
        rw [hstep2, hstep1]

/-- The dispatcher's pickup-exemption test holds exactly on a
player↔pickup pair of roles. -/
theorem isPlayerPickupPair_iff (o1 o2 : Entity) :
    isPlayerPickupPair o1 o2 = true ↔
      wpOptPair (some o1.role) (some o2.role) := by
  simp only [isPlayerPickupPair, wpOptPair, Bool.or_eq_true,
    Bool.and_eq_true, decide_eq_true_eq, Option.some.injEq]
  tauto

/-- Every role of this game has an `onCollision` hook. -/
theorem gameHooks_total (r : Role) : ∃ f, gameHooks r = some f := by
  cases r <;> exact ⟨_, rfl⟩

/-- A successful lookup determines the role stored under the id. -/
theorem roleOf_eq_some (st : List Entity) (i : Nat) (o : Entity)
    (h : getById st i = some o) : roleOf st i = some o.role := by
  unfold roleOf
  rw [h]
  rfl

/-- In a registry with unique ids, looking up a member's id finds exactly
that member. -/
theorem getById_of_mem :
    ∀ (st : List Entity), (st.map (fun o => o.id)).Nodup →
      ∀ o : Entity, o ∈ st → getById st o.id = some o := by
  intro st
  induction st with
  | nil => intro _ o ho; cases ho
  | cons a t ih =>
    intro hnd o ho
    simp only [List.map_cons, List.nodup_cons] at hnd
    rcases List.mem_cons.mp ho with rfl | hot
    · unfold getById
      rw [List.find?_cons_of_pos _ (by simp)]
    · have hne : ¬ a.id = o.id := by
        intro he
        exact hnd.1 (by rw [he]; exact List.mem_map_of_mem (fun o => o.id) hot)
      unfold getById
      rw [List.find?_cons_of_neg _ (by simp [hne])]
      exact ih hnd.2 o hot

/-- In a registry with unique ids, a member's stored role is its own. -/
theorem roleOf_of_mem (st : List Entity)
    (hnd : (st.map (fun o => o.id)).Nodup) (o : Entity) (ho : o ∈ st) :
    roleOf st o.id = some o.role :=
  roleOf_eq_some st o.id o (getById_of_mem st hnd o ho)

/-- Membership in a captured category id list comes from an active member
of that role. -/
theorem activeIds_mem (st : List Entity) (r : Role) (i : Nat)
    (h : i ∈ activeIds st r) :
    ∃ o, o ∈ st ∧ o.role = r ∧ o.active = true ∧ o.id = i := by
  unfold activeIds at h
  simp only [List.mem_map, List.mem_filter, Bool.and_eq_true,
    decide_eq_true_eq] at h
  obtain ⟨o, ⟨ho, hro, hao⟩, hid⟩ := h
  exact ⟨o, ho, hro, hao, hid⟩

/-- A successful `find` of an active object of a role comes from an active
member of that role. -/
theorem findActiveId_mem (st : List Entity) (r : Role) (i : Nat)
    (h : findActiveId st r = some i) :
    ∃ o, o ∈ st ∧ o.role = r ∧ o.active = true ∧ o.id = i := by
  unfold findActiveId at h
  cases hf : st.find? (fun o => o.role = r && o.active) with
  | none => rw [hf] at h; simp at h
  | some o =>
    rw [hf] at h
    simp only [Option.map_some'] at h
    injection h with h
    have hm := List.mem_of_find?_eq_some hf
    have hp := List.find?_some hf
    simp only [Bool.and_eq_true, decide_eq_true_eq] at hp
    exact ⟨o, hm, hp.1, hp.2, h⟩

/-- A captured category id list of a registry with unique ids is itself
duplicate-free. -/
theorem activeIds_nodup (st : List Entity) (r : Role)
    (hnd : (st.map (fun o => o.id)).Nodup) : (activeIds st r).Nodup := by
  unfold activeIds
  exact hnd.sublist
    (List.Sublist.map (fun o => o.id) (List.filter_sublist st))

/-- For a non-exempt pair the dispatcher either hits the dedup set (no
hook fires, nothing recorded) or records the ordered key and fires both
hooks, logging both invocations. -/
theorem handleCollision_nonWP_cases (pairs : List (Nat × Nat))
    (o1 o2 : Entity) (hwp : isPlayerPickupPair o1 o2 = false) :
    ((o1.id, o2.id) ∈ pairs ∧
      (handleCollision gameHooks pairs o1 o2).pairs = pairs ∧
      (handleCollision gameHooks pairs o1 o2).log = []) ∨
    ((o1.id, o2.id) ∉ pairs ∧
      (handleCollision gameHooks pairs o1 o2).pairs =
        (o1.id, o2.id) :: pairs ∧
      (handleCollision gameHooks pairs o1 o2).log =
        [(o1.id, o2.id), (o2.id, o1.id)]) := by
  obtain ⟨f, hf⟩ := gameHooks_total o1.role
  have hfid := gameHooks_preserve_id o1.role f hf o1 o2
  obtain ⟨g2, hg2⟩ := gameHooks_total (f o1 o2).2.role
  by_cases hm : (o1.id, o2.id) ∈ pairs
  · refine Or.inl ⟨hm, ?_, ?_⟩ <;> simp [handleCollision, hwp, hm]
  · refine Or.inr ⟨hm, ?_, ?_⟩ <;>
      simp [handleCollision, hwp, hm, hf, hg2, hfid.1, hfid.2]

/-- For an exempt player↔pickup pair the dispatcher always fires both
hooks, logging both invocations, and never touches the dedup set. -/
theorem handleCollision_WP_log (pairs : List (Nat × Nat)) (o1 o2 : Entity)
    (hwp : isPlayerPickupPair o1 o2 = true) :
    (handleCollision gameHooks pairs o1 o2).pairs = pairs ∧
    (handleCollision gameHooks pairs o1 o2).log =
      [(o1.id, o2.id), (o2.id, o1.id)] := by
  obtain ⟨f, hf⟩ := gameHooks_total o1.role
  have hfid := gameHooks_preserve_id o1.role f hf o1 o2
  obtain ⟨g2, hg2⟩ := gameHooks_total (f o1 o2).2.role
  constructor <;> simp [handleCollision, hwp, hf, hg2, hfid.1, hfid.2]

/-- A store-level dispatch whose two lookups succeed, written out. -/
theorem handleCollisionStore_eq (s : PassState) (i j : Nat)
    (o1 o2 : Entity) (h1 : getById s.store i = some o1)
    (h2 : getById s.store j = some o2) :
    handleCollisionStore gameHooks s i j =
      { store := setById (setById s.store i
            (handleCollision gameHooks s.pairs o1 o2).o1) j
            (handleCollision gameHooks s.pairs o1 o2).o2,
        pairs := (handleCollision gameHooks s.pairs o1 o2).pairs,
        log := s.log ++ (handleCollision gameHooks s.pairs o1 o2).log } := by
  unfold handleCollisionStore
  rw [h1, h2]

/-- A store-level dispatch with a failed lookup is a no-op. -/
theorem handleCollisionStore_none (s : PassState) (i j : Nat)
    (h : getById s.store i = none ∨ getById s.store j = none) :
    handleCollisionStore gameHooks s i j = s := by
  unfold handleCollisionStore
  rcases h with h | h
  · rw [h]
  · cases hx : getById s.store i <;> rw [h]

/-- Invariant threaded through the four category checks, stated against
the registry `O` as it stood when the pass began: the store keeps `O`'s
`(id, role)` sequence; the hook-invocation log is duplicate-free; every
recorded dedup key is a pair of ids whose roles form one of the four
category orientations; and every non-exempt log entry is covered by a
recorded key in one of the two orders. -/
structure PassInv (O : List Entity) (s : PassState) : Prop where
  tags : s.store.map tagOf = O.map tagOf
  lognodup : s.log.Nodup
  keysOriented : ∀ a b : Nat, (a, b) ∈ s.pairs → ∃ r1 r2,
    roleOf O a = some r1 ∧ roleOf O b = some r2 ∧ orientedPair r1 r2
  logCovered : ∀ a b : Nat, (a, b) ∈ s.log →
    ¬ wpOptPair (roleOf O a) (roleOf O b) →
      (a, b) ∈ s.pairs ∨ (b, a) ∈ s.pairs

/-- No log entry so far is an exempt player↔pickup invocation (holds up to
the start of the pickup category, which runs last). -/
def NoWPlog (O : List Entity) (s : PassState) : Prop :=
  ∀ a b : Nat, (a, b) ∈ s.log →
    ¬ wpOptPair (roleOf O a) (roleOf O b)

/-- Dispatching a pair in one of the three non-exempt category
orientations preserves the pass invariant (the ordered key plus
orientation antisymmetry make both same-order and swapped-order
re-dispatch impossible, so any new log entries are fresh) and adds no
exempt log entry. -/
theorem dispatch_nonWP (O : List Entity) (s : PassState) (i j : Nat)
    (r1 r2 : Role) (hinv : PassInv O s)
    (hri : roleOf O i = some r1) (hrj : roleOf O j = some r2)
    (hor : orientedPair r1 r2)
    (hnwp : ¬ wpOptPair (some r1) (some r2)) :
    PassInv O (handleCollisionStore gameHooks s i j) ∧
    (NoWPlog O s → NoWPlog O (handleCollisionStore gameHooks s i j)) := by
  cases h1 : getById s.store i with
  | none =>
    rw [handleCollisionStore_none s i j (Or.inl h1)]
    exact ⟨hinv, fun h => h⟩
  | some o1 =>
  cases h2 : getById s.store j with
  | none =>
    rw [handleCollisionStore_none s i j (Or.inr h2)]
    exact ⟨hinv, fun h => h⟩
  | some o2 =>
  have htags := hinv.tags
  have ho1r : o1.role = r1 := by
    have hcon := roleOf_congr s.store O htags i
    rw [roleOf_eq_some s.store i o1 h1, hri] at hcon
    exact Option.some.inj hcon
  have ho2r : o2.role = r2 := by
    have hcon := roleOf_congr s.store O htags j
    rw [roleOf_eq_some s.store j o2 h2, hrj] at hcon
    exact Option.some.inj hcon
  have hio1 : o1.id = i := getById_id s.store i o1 h1
  have hio2 : o2.id = j := getById_id s.store j o2 h2
  have hij : i ≠ j := by
    intro he
    have h3 := hri
    rw [he, hrj] at h3
    exact absurd (Option.some.inj h3).symm (orientedPair_ne r1 r2 hor)
  have hwp : isPlayerPickupPair o1 o2 = false := by
    cases hx : isPlayerPickupPair o1 o2
    · rfl
    · exfalso
      have hw := (isPlayerPickupPair_iff o1 o2).mp hx
      rw [ho1r, ho2r] at hw
      exact hnwp hw
  have hsteq := handleCollisionStore_eq s i j o1 o2 h1 h2
  have hstore : (handleCollisionStore gameHooks s i j).store.map tagOf =
      O.map tagOf := by
    rw [handleCollisionStore_map_tag s i j, htags]
  have hpairs : (handleCollisionStore gameHooks s i j).pairs =
      (handleCollision gameHooks s.pairs o1 o2).pairs := by rw [hsteq]
  have hlog : (handleCollisionStore gameHooks s i j).log =
      s.log ++ (handleCollision gameHooks s.pairs o1 o2).log := by
    rw [hsteq]
  have hnwp1 : ¬ wpOptPair (roleOf O i) (roleOf O j) := by
    rw [hri, hrj]; exact hnwp
  have hnwp2 : ¬ wpOptPair (roleOf O j) (roleOf O i) := by
    rw [hri, hrj]
    intro hx
    exact hnwp (wpOptPair_symm _ _ hx)
  rcases handleCollision_nonWP_cases s.pairs o1 o2 hwp with
    ⟨hm, hpp, hll⟩ | ⟨hm, hpp, hll⟩
  · -- duplicate dispatch: nothing fires, nothing recorded
    constructor
    · exact
        { tags := hstore
          lognodup := by
            rw [hlog, hll, List.append_nil]
            exact hinv.lognodup
          keysOriented := by
            rw [hpairs, hpp]
            exact hinv.keysOriented
          logCovered := by
            rw [hlog, hll, List.append_nil, hpairs, hpp]
            exact hinv.logCovered }
    · intro hn a b hab
      rw [hlog, hll, List.append_nil] at hab
      exact hn a b hab
  · -- fresh dispatch: the ordered key is new; both possible log entries
    -- would have been covered by an oriented key, so they are fresh too
    rw [hio1, hio2] at hm hpp hll
    have hswapkey : (j, i) ∉ s.pairs := by
      intro hin
      obtain ⟨r1x, r2x, hx1, hx2, hxo⟩ := hinv.keysOriented j i hin
      rw [hrj] at hx1
      rw [hri] at hx2
      rw [← Option.some.inj hx1, ← Option.some.inj hx2] at hxo
      exact orientedPair_asymm r1 r2 hor hxo
    have hfresh1 : (i, j) ∉ s.log := by
      intro hin
      rcases hinv.logCovered i j hin hnwp1 with hc | hc
      · exact hm hc
      · exact hswapkey hc
    have hfresh2 : (j, i) ∉ s.log := by
      intro hin
      rcases hinv.logCovered j i hin hnwp2 with hc | hc
      · exact hswapkey hc
      · exact hm hc
    constructor
    · exact
        { tags := hstore
          lognodup := by
            rw [hlog, hll]
            refine List.Nodup.append hinv.lognodup ?_ ?_
            · simp [List.nodup_cons, hij]
            · intro p hp1 hp2
              simp only [List.mem_cons, List.not_mem_nil, or_false] at hp2
              rcases hp2 with rfl | rfl
              · exact hfresh1 hp1
              · exact hfresh2 hp1
          keysOriented := by
            rw [hpairs, hpp]
            intro a b hab
            rcases List.mem_cons.mp hab with he | ht
            · rw [Prod.mk.injEq] at he
              obtain ⟨rfl, rfl⟩ := he
              exact ⟨r1, r2, hri, hrj, hor⟩
            · exact hinv.keysOriented a b ht
          logCovered := by
            rw [hlog, hll, hpairs, hpp]
            intro a b hab hnw
            rcases List.mem_append.mp hab with hold | hnew
            · rcases hinv.logCovered a b hold hnw with hc | hc
              · exact Or.inl (List.mem_cons_of_mem _ hc)
              · exact Or.inr (List.mem_cons_of_mem _ hc)
            · simp only [List.mem_cons, List.not_mem_nil, or_false] at hnew
              rcases hnew with he | he
              · rw [Prod.mk.injEq] at he
                obtain ⟨rfl, rfl⟩ := he
                exact Or.inl (List.mem_cons_self _ _)
              · rw [Prod.mk.injEq] at he
                obtain ⟨rfl, rfl⟩ := he
                exact Or.inr (List.mem_cons_self _ _) }
    · intro hn a b hab
      rw [hlog, hll] at hab
      rcases List.mem_append.mp hab with hold | hnew
      · exact hn a b hold
      · simp only [List.mem_cons, List.not_mem_nil, or_false] at hnew
        rcases hnew with he | he
        · rw [Prod.mk.injEq] at he
          obtain ⟨rfl, rfl⟩ := he
          exact hnwp1
        · rw [Prod.mk.injEq] at he
          obtain ⟨rfl, rfl⟩ := he
          exact hnwp2

/-- Dispatching an exempt player↔pickup pair whose two log entries are not
yet present preserves the pass invariant, leaves the dedup set untouched,
and extends the log only by those two entries. -/
theorem dispatch_WP (O : List Entity) (s : PassState) (i j : Nat)
    (hinv : PassInv O s)
    (hri : roleOf O i = some Role.player)
    (hrj : roleOf O j = some Role.weaponPickup)
    (hf1 : (i, j) ∉ s.log) (hf2 : (j, i) ∉ s.log) :
    PassInv O (handleCollisionStore gameHooks s i j) ∧
    (handleCollisionStore gameHooks s i j).pairs = s.pairs ∧
    ∀ p : Nat × Nat, p ∈ (handleCollisionStore gameHooks s i j).log →
      p ∈ s.log ∨ p = (i, j) ∨ p = (j, i) := by
  cases h1 : getById s.store i with
  | none =>
    rw [handleCollisionStore_none s i j (Or.inl h1)]
    exact ⟨hinv, rfl, fun p hp => Or.inl hp⟩
  | some o1 =>
  cases h2 : getById s.store j with
  | none =>
    rw [handleCollisionStore_none s i j (Or.inr h2)]
    exact ⟨hinv, rfl, fun p hp => Or.inl hp⟩
  | some o2 =>
  have htags := hinv.tags
  have ho1r : o1.role = Role.player := by
    have hcon := roleOf_congr s.store O htags i
    rw [roleOf_eq_some s.store i o1 h1, hri] at hcon
    exact Option.some.inj hcon
  have ho2r : o2.role = Role.weaponPickup := by
    have hcon := roleOf_congr s.store O htags j
    rw [roleOf_eq_some s.store j o2 h2, hrj] at hcon
    exact Option.some.inj hcon
  have hio1 : o1.id = i := getById_id s.store i o1 h1
  have hio2 : o2.id = j := getById_id s.store j o2 h2
  have hij : i ≠ j := by
    intro he
    have h3 := hri
    rw [he, hrj] at h3
    simp at h3
  have hwp : isPlayerPickupPair o1 o2 = true :=
    (isPlayerPickupPair_iff o1 o2).mpr
      (by rw [ho1r, ho2r]; exact Or.inl ⟨rfl, rfl⟩)
  have hsteq := handleCollisionStore_eq s i j o1 o2 h1 h2
  have hstore : (handleCollisionStore gameHooks s i j).store.map tagOf =
      O.map tagOf := by
    rw [handleCollisionStore_map_tag s i j, htags]
  obtain ⟨hpp, hll⟩ := handleCollision_WP_log s.pairs o1 o2 hwp
  rw [hio1, hio2] at hll
  have hpairs : (handleCollisionStore gameHooks s i j).pairs = s.pairs := by
    rw [hsteq]
    exact hpp
  have hlog : (handleCollisionStore gameHooks s i j).log =
      s.log ++ [(i, j), (j, i)] := by
    rw [hsteq]
    simp only [hll]
  refine ⟨?_, hpairs, ?_⟩
  · exact
      { tags := hstore
        lognodup := by
          rw [hlog]
          refine List.Nodup.append hinv.lognodup ?_ ?_
          · simp [List.nodup_cons, hij]
          · intro p hp1 hp2
            simp only [List.mem_cons, List.not_mem_nil, or_false] at hp2
            rcases hp2 with rfl | rfl
            · exact hf1 hp1
            · exact hf2 hp1
        keysOriented := by
          rw [hpairs]
          exact hinv.keysOriented
        logCovered := by
          rw [hlog, hpairs]
          intro a b hab hnw
          rcases List.mem_append.mp hab with hold | hnew
          · exact hinv.logCovered a b hold hnw
          · exfalso
            apply hnw
            simp only [List.mem_cons, List.not_mem_nil, or_false] at hnew
            rcases hnew with he | he
            · rw [Prod.mk.injEq] at he
              obtain ⟨rfl, rfl⟩ := he
              rw [hri, hrj]
              exact Or.inl ⟨rfl, rfl⟩
            · rw [Prod.mk.injEq] at he
              obtain ⟨rfl, rfl⟩ := he
              rw [hri, hrj]
              exact Or.inr ⟨rfl, rfl⟩ }
  · intro p hp
    rw [hlog] at hp
    rcases List.mem_append.mp hp with hold | hnew
    · exact Or.inl hold
    · simp only [List.mem_cons, List.not_mem_nil, or_false] at hnew
      rcases hnew with rfl | rfl
      · exact Or.inr (Or.inl rfl)
      · exact Or.inr (Or.inr rfl)

/-- A property of states holds of a two-way branch when it holds of both
outcomes. -/
theorem prop_ite (P : PassState → Prop) (c : Prop) [inst : Decidable c]
    (x y : PassState) (hx : P x) (hy : P y) : P (if c then x else y) := by
  split
  · exact hx
  · exact hy

/-- A property of states holds of the pickup category's two-test branch
when it holds of the dispatched and untouched outcomes. -/
theorem prop_ite2 (P : PassState → Prop) (c1 c2 : Prop) [inst1 : Decidable c1]
    [inst2 : Decidable c2] (x y : PassState) (hx : P x) (hy : P y) :
    P (if c1 then x else if c2 then x else y) := by
  split
  · exact hx
  · exact prop_ite P c2 x y hx hy

/-- Every id captured by a category filter carries that category's role in
the original registry, via the tag invariant. -/
theorem activeIds_roleOf (O : List Entity) (s : PassState) (r : Role)
    (hO : (O.map (fun o => o.id)).Nodup) (hinv : PassInv O s) :
    ∀ i ∈ activeIds s.store r, roleOf O i = some r := by
  intro i hi
  have hsid : (s.store.map (fun o => o.id)).Nodup := by
    rw [mapId_of_tag s.store O hinv.tags]
    exact hO
  obtain ⟨o, ho, hro, hao, hid⟩ := activeIds_mem s.store r i hi
  have h2 := roleOf_of_mem s.store hsid o ho
  rw [hid, hro] at h2
  rw [← roleOf_congr s.store O hinv.tags i]
  exact h2

/-- The id found by a category's `find` carries that category's role in
the original registry, via the tag invariant. -/
theorem findActiveId_roleOf (O : List Entity) (s : PassState) (r : Role)
    (i : Nat) (hO : (O.map (fun o => o.id)).Nodup) (hinv : PassInv O s)
    (h : findActiveId s.store r = some i) : roleOf O i = some r := by
  have hsid : (s.store.map (fun o => o.id)).Nodup := by
    rw [mapId_of_tag s.store O hinv.tags]
    exact hO
  obtain ⟨o, ho, hro, hao, hid⟩ := findActiveId_mem s.store r i h
  have h2 := roleOf_of_mem s.store hsid o ho
  rw [hid, hro] at h2
  rw [← roleOf_congr s.store O hinv.tags i]
  exact h2

/-- Invariant preservation along one bullet's inner enemy loop of the
bullet↔enemy category. -/
theorem cat1_inner_fold_inv (O : List Entity) (bid : Nat)
    (hb : roleOf O bid = some Role.playerBullet) (enemyIds : List Nat)
    (hero : ∀ e ∈ enemyIds, roleOf O e = some Role.enemy) :
    ∀ l : List Nat, (∀ e ∈ l, e ∈ enemyIds) →
      ∀ s2 : PassState, PassInv O s2 ∧ NoWPlog O s2 →
        PassInv O (l.foldl (fun s eid =>
            match getById s.store bid, getById s.store eid with
            | some b, some e =>
              if checkCollision b e then
                handleCollisionStore gameHooks s bid eid
              else s
            | _, _ => s) s2) ∧
        NoWPlog O (l.foldl (fun s eid =>
            match getById s.store bid, getById s.store eid with
            | some b, some e =>
              if checkCollision b e then
                handleCollisionStore gameHooks s bid eid
              else s
            | _, _ => s) s2) := by
  intro l
  induction l with
  | nil => intro _ s2 h; exact h
  | cons a t ih =>
    intro hsub s2 h
    have hamem := hsub a (List.mem_cons_self a t)
    have hstep :
        PassInv O (match getById s2.store bid, getById s2.store a with
          | some b, some e =>
            if checkCollision b e then
              handleCollisionStore gameHooks s2 bid a
            else s2
          | _, _ => s2) ∧
        NoWPlog O (match getById s2.store bid, getById s2.store a with
          | some b, some e =>
            if checkCollision b e then
              handleCollisionStore gameHooks s2 bid a
            else s2
          | _, _ => s2) := by
      cases h1 : getById s2.store bid with
      | none => cases h2 : getById s2.store a <;> exact h
      | some b =>
        cases h2 : getById s2.store a with
        | none => exact h
        | some e =>
          have hd := dispatch_nonWP O s2 bid a Role.playerBullet Role.enemy
            h.1 hb (hero a hamem) (Or.inl ⟨rfl, rfl⟩)
            (by intro hx
                rcases hx with ⟨hx1, hx2⟩ | ⟨hx1, hx2⟩ <;> simp at hx1)
          exact prop_ite (fun st => PassInv O st ∧ NoWPlog O st) _ _ _
            ⟨hd.1, hd.2 h.2⟩ h
    exact ih (fun e he => hsub e (List.mem_cons_of_mem a he)) _ hstep

/-- Invariant preservation through the bullet↔enemy category's outer
bullet loop. -/
theorem cat1_fold_inv (O : List Entity) (g : GridParams)
    (cells : ℤ × ℤ → List Nat) (enemyIds : List Nat)
    (hero : ∀ e ∈ enemyIds, roleOf O e = some Role.enemy) :
    ∀ l : List Nat, (∀ b ∈ l, roleOf O b = some Role.playerBullet) →
      ∀ s2 : PassState, PassInv O s2 ∧ NoWPlog O s2 →
        PassInv O (l.foldl (fun s bid =>
            match getById s.store bid with
            | none => s
            | some bullet =>
              let nearby := getNearbyIds g cells (getBounds bullet) bid
                enemyIds
              nearby.foldl (fun s eid =>
                match getById s.store bid, getById s.store eid with
                | some b, some e =>
                  if checkCollision b e then
                    handleCollisionStore gameHooks s bid eid
                  else s
                | _, _ => s) s) s2) ∧
        NoWPlog O (l.foldl (fun s bid =>
            match getById s.store bid with
            | none => s
            | some bullet =>
              let nearby := getNearbyIds g cells (getBounds bullet) bid
                enemyIds
              nearby.foldl (fun s eid =>
                match getById s.store bid, getById s.store eid with
                | some b, some e =>
                  if checkCollision b e then
                    handleCollisionStore gameHooks s bid eid
                  else s
                | _, _ => s) s) s2) := by
  intro l
  induction l with
  | nil => intro _ s2 h; exact h
  | cons a t ih =>
    intro hsub s2 h
    have hstep :
        PassInv O (match getById s2.store a with
          | none => s2
          | some bullet =>
            let nearby := getNearbyIds g cells (getBounds bullet) a enemyIds
            nearby.foldl (fun s eid =>
              match getById s.store a, getById s.store eid with
              | some b, some e =>
                if checkCollision b e then
                  handleCollisionStore gameHooks s a eid
                else s
              | _, _ => s) s2) ∧
        NoWPlog O (match getById s2.store a with
          | none => s2
          | some bullet =>
            let nearby := getNearbyIds g cells (getBounds bullet) a enemyIds
            nearby.foldl (fun s eid =>
              match getById s.store a, getById s.store eid with
              | some b, some e =>
                if checkCollision b e then
                  handleCollisionStore gameHooks s a eid
                else s
              | _, _ => s) s2) := by
      cases hb : getById s2.store a with
      | none => exact h
      | some bullet =>
        refine cat1_inner_fold_inv O a (hsub a (List.mem_cons_self a t))
          enemyIds hero
          (getNearbyIds g cells (getBounds bullet) a enemyIds) ?_ s2 h
        intro e he
        rcases (getNearbyIds_mem g cells (getBounds bullet) a enemyIds
          e).mp he with ⟨row, col, hrange, hcell, htarget, hne⟩
        exact htarget
    exact ih (fun b hbm => hsub b (List.mem_cons_of_mem a hbm)) _ hstep

/-- The bullet↔enemy category preserves the pass invariant and adds no
exempt log entry. -/
theorem cat1_inv (O : List Entity) (g : GridParams)
    (cells : ℤ × ℤ → List Nat) (s : PassState)
    (hO : (O.map (fun o => o.id)).Nodup)
    (hinv : PassInv O s) (hn : NoWPlog O s) :
    PassInv O (checkPlayerBulletEnemyCollisions g cells gameHooks s) ∧
    NoWPlog O (checkPlayerBulletEnemyCollisions g cells gameHooks s) :=
  cat1_fold_inv O g cells (activeIds s.store Role.enemy)
    (activeIds_roleOf O s Role.enemy hO hinv)
    (activeIds s.store Role.playerBullet)
    (activeIds_roleOf O s Role.playerBullet hO hinv) s ⟨hinv, hn⟩

/-- Invariant preservation along the enemy-bullet↔player category's
loop. -/
theorem cat2_fold_inv (O : List Entity) (pid : Nat)
    (hpid : roleOf O pid = some Role.player) :
    ∀ l : List Nat, (∀ b ∈ l, roleOf O b = some Role.enemyBullet) →
      ∀ s2 : PassState, PassInv O s2 ∧ NoWPlog O s2 →
        PassInv O (l.foldl (fun s bid =>
            match getById s.store bid, getById s.store pid with
            | some b, some p =>
              if checkCollision b p then
                handleCollisionStore gameHooks s bid pid
              else s
            | _, _ => s) s2) ∧
        NoWPlog O (l.foldl (fun s bid =>
            match getById s.store bid, getById s.store pid with
            | some b, some p =>
              if checkCollision b p then
                handleCollisionStore gameHooks s bid pid
              else s
            | _, _ => s) s2) := by
  intro l
  induction l with
  | nil => intro _ s2 h; exact h
  | cons a t ih =>
    intro hsub s2 h
    have hamem := hsub a (List.mem_cons_self a t)
    have hstep :
        PassInv O (match getById s2.store a, getById s2.store pid with
          | some b, some p =>
            if checkCollision b p then
              handleCollisionStore gameHooks s2 a pid
            else s2
          | _, _ => s2) ∧
        NoWPlog O (match getById s2.store a, getById s2.store pid with
          | some b, some p =>
            if checkCollision b p then
              handleCollisionStore gameHooks s2 a pid
            else s2
          | _, _ => s2) := by
      cases h1 : getById s2.store a with
      | none => cases h2 : getById s2.store pid <;> exact h
      | some b =>
        cases h2 : getById s2.store pid with
        | none => exact h
        | some p =>
          have hd := dispatch_nonWP O s2 a pid Role.enemyBullet Role.player
            h.1 hamem hpid (Or.inr (Or.inl ⟨rfl, rfl⟩))
            (by intro hx
                rcases hx with ⟨hx1, hx2⟩ | ⟨hx1, hx2⟩ <;> simp at hx1)
          exact prop_ite (fun st => PassInv O st ∧ NoWPlog O st) _ _ _
            ⟨hd.1, hd.2 h.2⟩ h
    exact ih (fun b hbm => hsub b (List.mem_cons_of_mem a hbm)) _ hstep

/-- The enemy-bullet↔player category preserves the pass invariant and
adds no exempt log entry. -/
theorem cat2_inv (O : List Entity) (s : PassState)
    (hO : (O.map (fun o => o.id)).Nodup)
    (hinv : PassInv O s) (hn : NoWPlog O s) :
    PassInv O (checkEnemyBulletPlayerCollisions gameHooks s) ∧
    NoWPlog O (checkEnemyBulletPlayerCollisions gameHooks s) := by
  unfold checkEnemyBulletPlayerCollisions
  cases hp : findActiveId s.store Role.player with
  | none => exact ⟨hinv, hn⟩
  | some pid =>
    exact cat2_fold_inv O pid
      (findActiveId_roleOf O s Role.player pid hO hinv hp)
      (activeIds s.store Role.enemyBullet)
      (activeIds_roleOf O s Role.enemyBullet hO hinv) s ⟨hinv, hn⟩

/-- Invariant preservation along the player↔enemy category's loop. -/
theorem cat3_fold_inv (O : List Entity) (pid : Nat)
    (hpid : roleOf O pid = some Role.player) :
    ∀ l : List Nat, (∀ e ∈ l, roleOf O e = some Role.enemy) →
      ∀ s2 : PassState, PassInv O s2 ∧ NoWPlog O s2 →
        PassInv O (l.foldl (fun s eid =>
            match getById s.store pid, getById s.store eid with
            | some p, some e =>
              if checkCollision p e then
                handleCollisionStore gameHooks s pid eid
              else s
            | _, _ => s) s2) ∧
        NoWPlog O (l.foldl (fun s eid =>
            match getById s.store pid, getById s.store eid with
            | some p, some e =>
              if checkCollision p e then
                handleCollisionStore gameHooks s pid eid
              else s
            | _, _ => s) s2) := by
  intro l
  induction l with
  | nil => intro _ s2 h; exact h
  | cons a t ih =>
    intro hsub s2 h
    have hamem := hsub a (List.mem_cons_self a t)
    have hstep :
        PassInv O (match getById s2.store pid, getById s2.store a with
          | some p, some e =>
            if checkCollision p e then
              handleCollisionStore gameHooks s2 pid a
            else s2
          | _, _ => s2) ∧
        NoWPlog O (match getById s2.store pid, getById s2.store a with
          | some p, some e =>
            if checkCollision p e then
              handleCollisionStore gameHooks s2 pid a
            else s2
          | _, _ => s2) := by
      cases h1 : getById s2.store pid with
      | none => cases h2 : getById s2.store a <;> exact h
      | some p =>
        cases h2 : getById s2.store a with
        | none => exact h
        | some e =>
          have hd := dispatch_nonWP O s2 pid a Role.player Role.enemy
            h.1 hpid hamem (Or.inr (Or.inr (Or.inl ⟨rfl, rfl⟩)))
            (by intro hx
                rcases hx with ⟨hx1, hx2⟩ | ⟨hx1, hx2⟩
                · simp at hx2
                · simp at hx1)
          exact prop_ite (fun st => PassInv O st ∧ NoWPlog O st) _ _ _
            ⟨hd.1, hd.2 h.2⟩ h
    exact ih (fun e he => hsub e (List.mem_cons_of_mem a he)) _ hstep

/-- The player↔enemy category preserves the pass invariant and adds no
exempt log entry. -/
theorem cat3_inv (O : List Entity) (s : PassState)
    (hO : (O.map (fun o => o.id)).Nodup)
    (hinv : PassInv O s) (hn : NoWPlog O s) :
    PassInv O (checkPlayerEnemyCollisions gameHooks s) ∧
    NoWPlog O (checkPlayerEnemyCollisions gameHooks s) := by
  unfold checkPlayerEnemyCollisions
  cases hp : findActiveId s.store Role.player with
  | none => exact ⟨hinv, hn⟩
  | some pid =>
    exact cat3_fold_inv O pid
      (findActiveId_roleOf O s Role.player pid hO hinv hp)
      (activeIds s.store Role.enemy)
      (activeIds_roleOf O s Role.enemy hO hinv) s ⟨hinv, hn⟩

/-- Invariant preservation along the pickup category's loop: the walked
pickup-id list is duplicate-free and each listed dispatch is still fresh
in the log, so every exempt dispatch adds only new entries. -/
theorem cat4_fold_inv (O : List Entity) (pid : Nat)
    (hpid : roleOf O pid = some Role.player) (pickupIds : List Nat)
    (hkr : ∀ k ∈ pickupIds, roleOf O k = some Role.weaponPickup) :
    ∀ l : List Nat, l.Nodup → (∀ k ∈ l, k ∈ pickupIds) →
      ∀ s2 : PassState, PassInv O s2 →
        (∀ k ∈ l, (pid, k) ∉ s2.log ∧ (k, pid) ∉ s2.log) →
        PassInv O (l.foldl (fun s kid =>
            match getById s.store pid, getById s.store kid with
            | some p, some k =>
              if sqrtLe (distSq p k) 30 then
                handleCollisionStore gameHooks s pid kid
              else if checkCollision p k then
                handleCollisionStore gameHooks s pid kid
              else s
            | _, _ => s) s2) := by
  intro l
  induction l with
  | nil => intro _ _ s2 hinv _; exact hinv
  | cons a t ih =>
    intro hnd hsub s2 hinv hfresh
    rw [List.nodup_cons] at hnd
    have hamem := hsub a (List.mem_cons_self a t)
    have hafresh := hfresh a (List.mem_cons_self a t)
    have hpa : pid ≠ a := by
      intro he
      have h3 := hpid
      rw [he, hkr a hamem] at h3
      simp at h3
    have hd := dispatch_WP O s2 pid a hinv hpid (hkr a hamem)
      hafresh.1 hafresh.2
    have hkeep : PassInv O s2 ∧
        ∀ k ∈ t, (pid, k) ∉ s2.log ∧ (k, pid) ∉ s2.log :=
      ⟨hinv, fun k hk => hfresh k (List.mem_cons_of_mem a hk)⟩
    have hdisp : PassInv O (handleCollisionStore gameHooks s2 pid a) ∧
        ∀ k ∈ t,
          (pid, k) ∉ (handleCollisionStore gameHooks s2 pid a).log ∧
          (k, pid) ∉ (handleCollisionStore gameHooks s2 pid a).log := by
      refine ⟨hd.1, ?_⟩
      intro k hk
      have hkt := hfresh k (List.mem_cons_of_mem a hk)
      have hka : k ≠ a := by
        intro he
        exact hnd.1 (he ▸ hk)
      constructor
      · intro hin
        rcases hd.2.2 (pid, k) hin with hx | hx | hx
        · exact hkt.1 hx
        · rw [Prod.mk.injEq] at hx
          exact hka hx.2
        · rw [Prod.mk.injEq] at hx
          exact hpa hx.1
      · intro hin
        rcases hd.2.2 (k, pid) hin with hx | hx | hx
        · exact hkt.2 hx
        · rw [Prod.mk.injEq] at hx
          exact hpa hx.2
        · rw [Prod.mk.injEq] at hx
          exact hka hx.1
    have hstep :
        PassInv O (match getById s2.store pid, getById s2.store a with
          | some p, some k =>
            if sqrtLe (distSq p k) 30 then
              handleCollisionStore gameHooks s2 pid a
            else if checkCollision p k then
              handleCollisionStore gameHooks s2 pid a
            else s2
          | _, _ => s2) ∧
        ∀ k ∈ t,
          (pid, k) ∉
            (match getById s2.store pid, getById s2.store a with
              | some p, some k2 =>
                if sqrtLe (distSq p k2) 30 then
                  handleCollisionStore gameHooks s2 pid a
                else if checkCollision p k2 then
                  handleCollisionStore gameHooks s2 pid a
                else s2
              | _, _ => s2).log ∧
          (k, pid) ∉
            (match getById s2.store pid, getById s2.store a with
              | some p, some k2 =>
                if sqrtLe (distSq p k2) 30 then
                  handleCollisionStore gameHooks s2 pid a
                else if checkCollision p k2 then
                  handleCollisionStore gameHooks s2 pid a
                else s2
              | _, _ => s2).log := by
      cases h1 : getById s2.store pid with
      | none => cases h2 : getById s2.store a <;> exact hkeep
      | some p =>
        cases h2 : getById s2.store a with
        | none => exact hkeep
        | some k =>
          exact prop_ite2 (fun st => PassInv O st ∧
            ∀ k2 ∈ t, (pid, k2) ∉ st.log ∧ (k2, pid) ∉ st.log) _ _ _ _
            hdisp hkeep
    exact ih hnd.2 (fun k hk => hsub k (List.mem_cons_of_mem a hk)) _
      hstep.1 hstep.2

/-- The player↔pickup category preserves the pass invariant: entering
with an exempt-free log, its dedup-exempt dispatches pair the single
player id with pairwise-distinct pickup ids, so all its log entries are
fresh. -/
theorem cat4_inv (O : List Entity) (s : PassState)
    (hO : (O.map (fun o => o.id)).Nodup)
    (hinv : PassInv O s) (hn : NoWPlog O s) :
    PassInv O (checkPlayerWeaponPickupCollisions gameHooks s) := by
  unfold checkPlayerWeaponPickupCollisions
  cases hp : findActiveId s.store Role.player with
  | none => exact hinv
  | some pid =>
    have hsid : (s.store.map (fun o => o.id)).Nodup := by
      rw [mapId_of_tag s.store O hinv.tags]
      exact hO
    have hpid := findActiveId_roleOf O s Role.player pid hO hinv hp
    have hkr := activeIds_roleOf O s Role.weaponPickup hO hinv
    refine cat4_fold_inv O pid hpid (activeIds s.store Role.weaponPickup)
      hkr (activeIds s.store Role.weaponPickup)
      (activeIds_nodup s.store Role.weaponPickup hsid)
      (fun k hk => hk) s hinv ?_
    intro k hk
    constructor
    · intro hin
      exact hn pid k hin
        (by rw [hpid, hkr k hk]; exact Or.inl ⟨rfl, rfl⟩)
    · intro hin
      exact hn k pid hin
        (by rw [hpid, hkr k hk]; exact Or.inr ⟨rfl, rfl⟩)

/-- The hook-invocation log of a full collision pass over a registry with
unique object ids is duplicate-free: each category presents every pair in
one fixed role orientation, the ordered dedup key plus orientation
antisymmetry block any repeat among the three non-exempt categories, and
the dedup-exempt pickup category pairs the single player with
pairwise-distinct pickup ids, so no hook invocation is ever logged
twice. -/
theorem collisionPass_log_nodup (g : GridParams) (objs : List Entity)
    (hO : (objs.map (fun o => o.id)).Nodup) :
    ((collisionPass g gameHooks objs).2).Nodup := by
  have hinv0 : PassInv objs { store := objs, pairs := [], log := [] } :=
    { tags := rfl
      lognodup := List.nodup_nil
      keysOriented := by intro a b hab; cases hab
      logCovered := by intro a b hab; cases hab }
  have hn0 : NoWPlog objs { store := objs, pairs := [], log := [] } := by
    intro a b hab
    cases hab
  have h1 := cat1_inv objs g (buildGrid g objs)
    { store := objs, pairs := [], log := [] } hO hinv0 hn0
  have h2 := cat2_inv objs _ hO h1.1 h1.2
  have h3 := cat3_inv objs _ hO h2.1 h2.2
  have h4 := cat4_inv objs _ hO h3.1 h3.2
  exact h4.lognodup

/-- A duplicate-free list holds each value at most once. -/
theorem count_le_one_of_nodup {α : Type} [BEq α] [LawfulBEq α] :
    ∀ l : List α, l.Nodup → ∀ q : α, l.count q ≤ 1 := by
  intro l
  induction l with
  | nil => intro _ q; simp
  | cons a t ih =>
    intro h q
    rw [List.nodup_cons] at h
    have ht := ih h.2 q
    by_cases he : q = a
    · subst he
      have h0 : t.count q = 0 := by
        rw [List.count_eq_zero]
        exact h.1
      simp [List.count_cons, h0]
    · have he2 : ¬(a = q) := fun hx => he hx.symm
      simpa [List.count_cons, he, he2] using ht

/-- C3 amended: the per-frame dedup key is the *ordered* pair of entity
ids in dispatch order, not an order-normalized unordered key.  Under it:
(a) once a non-exempt pair has been dispatched as `(o1, o2)`, any later
dispatch of the same-id entities in the same order (their states may have
been mutated meanwhile) is a recorded duplicate — no hook fires and the
state comes back unchanged; (b) player↔pickup pairs bypass the dedup set
entirely: they record no key and their hook invocations are independent
of the set's contents, and a swapped-order re-presentation is not
deduplicated, as the counterexample shows; but (c) in the actual
per-frame collision pass over a registry with unique object ids, each
category presents every pair to the dispatcher in one fixed role
orientation, so the pass's hook-invocation log contains no duplicate
`(self, other)` entry — every pair's collision hooks fire at most once
per frame. -/
theorem c3_ordered_key_dedup (hooks : Role → Option HookFn)
    (pairs : List (Nat × Nat)) (o1 o2 e1 e2 : Entity)
    (hwp : isPlayerPickupPair o1 o2 = false)
    (hid1 : e1.id = o1.id) (hid2 : e2.id = o2.id)
    (hwp2 : isPlayerPickupPair e1 e2 = false) :
    (handleCollision hooks (handleCollision hooks pairs o1 o2).pairs
        e1 e2) =
      { pairs := (handleCollision hooks pairs o1 o2).pairs,
        o1 := e1, o2 := e2, log := [] } ∧
    (∀ p k : Entity, isPlayerPickupPair p k = true →
      (handleCollision hooks pairs p k).pairs = pairs ∧
      (handleCollision hooks pairs p k).log =
        (handleCollision hooks [] p k).log) ∧
    (∀ (g : GridParams) (objs : List Entity),
      (objs.map (fun o => o.id)).Nodup →
      ((collisionPass g gameHooks objs).2).Nodup ∧
      ∀ q : Nat × Nat,
        ((collisionPass g gameHooks objs).2).count q ≤ 1) := by
  refine ⟨?_, ?_, ?_⟩
  · have hmem : (e1.id, e2.id) ∈
        (handleCollision hooks pairs o1 o2).pairs := by
      rw [hid1, hid2]
      exact handleCollision_key_mem hooks pairs o1 o2 hwp
    generalize hP : (handleCollision hooks pairs o1 o2).pairs = P at hmem ⊢
    simp [handleCollision, hwp2, hmem]
  · intro p k hpk
    cases h1 : hooks p.role <;> simp [handleCollision, hpk, h1]
  · intro g objs hO
    exact ⟨collisionPass_log_nodup g objs hO,
      count_le_one_of_nodup _ (collisionPass_log_nodup g objs hO)⟩

/-- C3 amended-claim witness at concrete inputs: re-dispatching the same
enemy↔bullet pair in the same order is a silent duplicate, and the full
pass over the pickup scene (whose two object ids are distinct) logs each
hook invocation at most once. -/
theorem c3_ordered_key_dedup_witness :
    (handleCollision gameHooks
        (handleCollision gameHooks []
          (mkEntity 5 Role.enemy 100 100 24 16)
          (mkEntity 6 Role.playerBullet 100 100 4 4)).pairs
        (mkEntity 5 Role.enemy 100 100 24 16)
        (mkEntity 6 Role.playerBullet 100 100 4 4)) =
      { pairs := (handleCollision gameHooks []
          (mkEntity 5 Role.enemy 100 100 24 16)
          (mkEntity 6 Role.playerBullet 100 100 4 4)).pairs,
        o1 := mkEntity 5 Role.enemy 100 100 24 16,
        o2 := mkEntity 6 Role.playerBullet 100 100 4 4, log := [] } ∧
    (pickupScene.map (fun o => o.id)).Nodup ∧
    ((collisionPass gameGrid gameHooks pickupScene).2).Nodup ∧
    ∀ q : Nat × Nat,
      ((collisionPass gameGrid gameHooks pickupScene).2).count q ≤ 1 := by
  have h := c3_ordered_key_dedup gameHooks []
    (mkEntity 5 Role.enemy 100 100 24 16)
    (mkEntity 6 Role.playerBullet 100 100 4 4)
    (mkEntity 5 Role.enemy 100 100 24 16)
    (mkEntity 6 Role.playerBullet 100 100 4 4)
    rfl rfl rfl rfl
  have hids : (pickupScene.map (fun o => o.id)).Nodup := by decide
  exact ⟨h.1, hids, (h.2.2 gameGrid pickupScene hids).1,
    (h.2.2 gameGrid pickupScene hids).2⟩
